import Mathlib

/-!
# Verification of the `creadordehorario` schedule planner core

Shallow embedding of the repository's core logic:

* `src/src/services/scrapingService.ts` — text normalization, day/time
  parsing, the profile/matricula session parsers, the student-profile row
  extractor, and the `parseTecHtmlWithReport` orchestrator with its
  bounded report history;
* `src/src/hooks/useSchedule.ts` and the newer revision of the same hook
  shipped as `src/unnamed/part_006` — the conflict engine
  (`checkSessionConflict`, `checkCourseConflicts`), course mutations
  (`addCourse`, `addCourses`, `updateCourse`, `toggleCourseStatus`),
  `importCourses` and `renameSchedule`.

JS strings are Lean `String`s (traversed as `List Char`), JS numbers that
the code uses as integers are `Int`/`Nat` (`NaN` becomes `none`), thrown
exceptions become explicit error components of the result, and the DOM is
abstracted only where noted by a doc comment.
-/

/-! ## JS primitives: whitespace, numbers, case folding -/

/-- The character class of JavaScript regex `\s` (ECMA-262 WhiteSpace and
LineTerminator), which is what `.replace(/\s+/g, ' ')`, `.trim()` and
`Number.parseInt` skip. -/
def isJsWhitespace (c : Char) : Bool :=
  c = ' ' || c = '\t' || c = '\n' || c = '\r' || c.val = 0x0B || c.val = 0x0C ||
  c.val = 0xA0 || c.val = 0x1680 || (0x2000 ≤ c.val && c.val ≤ 0x200A) ||
  c.val = 0x2028 || c.val = 0x2029 || c.val = 0x202F || c.val = 0x205F ||
  c.val = 0x3000 || c.val = 0xFEFF

/-- `value.replace(/\s+/g, ' ')`: every maximal run of whitespace becomes a
single space. A run of `n ≥ 2` whitespace characters is collapsed by
dropping all but the last, which is emitted as `' '`. -/
def collapseWS : List Char → List Char
  | [] => []
  | [c] => if isJsWhitespace c then [' '] else [c]
  | c1 :: c2 :: rest =>
    if isJsWhitespace c1 && isJsWhitespace c2 then collapseWS (c2 :: rest)
    else (if isJsWhitespace c1 then ' ' else c1) :: collapseWS (c2 :: rest)

/-- `.trim()` applied after `collapseWS`: the only whitespace left in a
collapsed string is `' '`, so trimming removes spaces at both ends. -/
def dropEndSpaces (cs : List Char) : List Char :=
  ((cs.dropWhile fun c => c = ' ').reverse.dropWhile fun c => c = ' ').reverse

/-- `normalizeWhitespace` from scrapingService.ts:
`(value || '').replace(/\s+/g, ' ').trim()`. -/
def normalizeWhitespace (value : String) : String :=
  String.mk (dropEndSpaces (collapseWS value.data))

/-- One character step of `.toLowerCase().normalize('NFD').replace(/[̀-ͯ]/g, '')`:
lower-case the character and strip its diacritic. Modelled character-wise
for the Latin letters that occur in this codebase (ASCII plus the accented
Spanish vowels, `ü` and `ñ`); NFD decomposition of those characters is one
base letter plus one combining mark, so the composite map is exact. -/
def jsLowerDeaccent (c : Char) : Char :=
  if c = 'Á' || c = 'á' then 'a'
  else if c = 'É' || c = 'é' then 'e'
  else if c = 'Í' || c = 'í' then 'i'
  else if c = 'Ó' || c = 'ó' then 'o'
  else if c = 'Ú' || c = 'ú' then 'u'
  else if c = 'Ü' || c = 'ü' then 'u'
  else if c = 'Ñ' || c = 'ñ' then 'n'
  else if 'A' ≤ c && c ≤ 'Z' then Char.toLower c
  else c

/-- `normalizeComparable` from scrapingService.ts:
`normalizeWhitespace(value).toLowerCase().normalize('NFD').replace(/[̀-ͯ]/g, '')`. -/
def normalizeComparable (value : String) : String :=
  String.mk ((normalizeWhitespace value).data.map jsLowerDeaccent)

/-- One character step of JS `.toUpperCase()`, modelled for the same Latin
character range as `jsLowerDeaccent`. -/
def jsUpperChar (c : Char) : Char :=
  if c = 'á' then 'Á'
  else if c = 'é' then 'É'
  else if c = 'í' then 'Í'
  else if c = 'ó' then 'Ó'
  else if c = 'ú' then 'Ú'
  else if c = 'ü' then 'Ü'
  else if c = 'ñ' then 'Ñ'
  else if 'a' ≤ c && c ≤ 'z' then Char.toUpper c
  else c

/-- JS `.toUpperCase()` on a string. -/
def jsToUpper (s : String) : String :=
  String.mk (s.data.map jsUpperChar)

/-- Numeric value of a (nonempty, all-digit) character list. -/
def digitsToNat (ds : List Char) : Nat :=
  ds.foldl (fun a c => a * 10 + (c.toNat - 48)) 0

/-- `Number.parseInt(s, 10)`: skip leading whitespace, optional sign, then
the longest digit prefix; `none` models `NaN` (no digits). Trailing
non-digit characters are ignored, as in JS. -/
def jsParseInt (s : String) : Option Int :=
  let t := s.data.dropWhile isJsWhitespace
  let signRest : Int × List Char :=
    match t with
    | '-' :: r => (-1, r)
    | '+' :: r => (1, r)
    | r => (1, r)
  let ds := signRest.2.takeWhile Char.isDigit
  if ds.isEmpty then none
  else some (signRest.1 * (digitsToNat ds : Int))

/-- JS `Number(s)` restricted to integer literals, which is the only shape
this codebase feeds it (`parseTime` on `HH:MM` pieces): trimmed empty
string is `0`, an optionally signed all-digit string is its value, and
anything else is `NaN` (`none`). -/
def jsNumberInt (s : String) : Option Int :=
  let t := (s.data.dropWhile isJsWhitespace).reverse.dropWhile isJsWhitespace |>.reverse
  if t.isEmpty then some 0
  else
    let signRest : Int × List Char :=
      match t with
      | '-' :: r => (-1, r)
      | '+' :: r => (1, r)
      | r => (1, r)
    if signRest.2 ≠ [] && signRest.2.all Char.isDigit then
      some (signRest.1 * (digitsToNat signRest.2 : Int))
    else none

/-- `String.prototype.split(sep)` for a single-character separator. -/
def splitOnChar (sep : Char) : List Char → List (List Char)
  | [] => [[]]
  | c :: cs =>
    match splitOnChar sep cs with
    | [] => if c = sep then [[], []] else [[c]]
    | h :: t => if c = sep then [] :: h :: t else (c :: h) :: t

/-- Models `x || fallback` on JS strings (empty string is falsy). -/
def jsOrDefault (s fallback : String) : String :=
  if s = "" then fallback else s

example : normalizeWhitespace "  Miercoles   -  18:0:21:50  " = "Miercoles - 18:0:21:50" := by decide
example : normalizeComparable " MiÉrCoLeS " = "miercoles" := by decide
example : jsParseInt " 07" = some 7 := by decide
example : jsParseInt "x" = none := by decide
example : jsNumberInt "" = some 0 := by decide
example : jsNumberInt "3a" = none := by decide
example : splitOnChar ':' "07:30".data = ["07".data, "30".data] := by decide

/-! ## Day and time normalization (scrapingService.ts) -/

/-- Modelled from the spec: the canonical seven day names from
`src/src/utils.ts`, which is not among the provided sources. The spec fixes
"seven canonical day names, insertion order = week order" and the repo's
tests pin `DAYS[0] = "Lunes"`, `DAYS[2] = "Miércoles"`, `DAYS[3] = "Jueves"`
(accented Spanish day names, Monday first). -/
def DAYS : List String :=
  ["Lunes", "Martes", "Miércoles", "Jueves", "Viernes", "Sábado", "Domingo"]

/-- `DAY_CODE_MAP` from scrapingService.ts: single-letter day codes to
canonical days (note `K` is Tuesday and `M` is Wednesday). Record lookup
misses are `undefined`, modelled as `none`. -/
def DAY_CODE_MAP (k : String) : Option String :=
  if k = "L" then DAYS.get? 0
  else if k = "K" then DAYS.get? 1
  else if k = "M" then DAYS.get? 2
  else if k = "J" then DAYS.get? 3
  else if k = "V" then DAYS.get? 4
  else if k = "S" then DAYS.get? 5
  else if k = "D" then DAYS.get? 6
  else none

/-- `DAY_NAME_MAP` from scrapingService.ts: accent-stripped lower-case full
day names to canonical days. -/
def DAY_NAME_MAP (k : String) : Option String :=
  if k = "lunes" then DAYS.get? 0
  else if k = "martes" then DAYS.get? 1
  else if k = "miercoles" then DAYS.get? 2
  else if k = "jueves" then DAYS.get? 3
  else if k = "viernes" then DAYS.get? 4
  else if k = "sabado" then DAYS.get? 5
  else if k = "domingo" then DAYS.get? 6
  else none

/-- `normalizeDay` from scrapingService.ts: trim the raw value; empty gives
`null`; a single-letter code matched case-insensitively (via upper-casing)
wins, otherwise look up the accent-stripped lower-cased name; `null` when
neither map hits. -/
def normalizeDay (rawDay : String) : Option String :=
  let clean := normalizeWhitespace rawDay
  if clean = "" then none
  else
    match DAY_CODE_MAP (jsToUpper clean) with
    | some d => some d
    | none => DAY_NAME_MAP (normalizeComparable clean)

/-- `n.toString().padStart(2, '0')` for the hour/minute numbers. -/
def pad2 (n : Nat) : String :=
  let s := toString n
  if s.length < 2 then "0" ++ s else s

/-- `parseNormalizedTime` from scrapingService.ts: parse both components,
reject `NaN` and out-of-range values, and build a zero-padded `HH:MM`. -/
def parseNormalizedTime (hourText minuteText : String) : Option String :=
  match jsParseInt hourText, jsParseInt minuteText with
  | some hour, some minute =>
    if hour < 0 || hour > 23 || minute < 0 || minute > 59 then none
    else some (pad2 hour.toNat ++ ":" ++ pad2 minute.toNat)
  | _, _ => none

/-- `CourseStatus` from src/src/types.ts (`src/unnamed/part_008`). -/
inductive CourseStatus where
  | presencial
  | virtual
  | semipresencial
  | asistido
  | bimodal
  | regular
deriving DecidableEq, Repr

/-- `STATUS_MAP` from scrapingService.ts. -/
def STATUS_MAP (k : String) : Option CourseStatus :=
  if k = "presencial" then some .presencial
  else if k = "virtual" then some .virtual
  else if k = "semipresencial" then some .semipresencial
  else if k = "bimodal" then some .bimodal
  else if k = "regular" then some .regular
  else none

/-- `normalizeStatus` from scrapingService.ts: look up the comparable form,
defaulting to `Presencial`. -/
def normalizeStatus (value : String) : CourseStatus :=
  (STATUS_MAP (normalizeComparable value)).getD .presencial

/-- `parseInteger` from scrapingService.ts: `Number.parseInt` of the
whitespace-normalized text, with a fallback when the result is not finite. -/
def parseInteger (value : String) (fallback : Int := 0) : Int :=
  (jsParseInt (normalizeWhitespace value)).getD fallback

/-- `parseReserved` from scrapingService.ts. -/
def parseReserved (value : String) : Bool :=
  ["1", "si", "s", "true"].contains (normalizeComparable value)

example : normalizeDay "L" = some "Lunes" := by decide
example : normalizeDay "k" = some "Martes" := by decide
example : normalizeDay " Miércoles " = some "Miércoles" := by decide
example : normalizeDay "MIERCOLES" = some "Miércoles" := by decide
example : normalizeDay "Sabado" = some "Sábado" := by decide
example : normalizeDay "" = none := by decide
example : normalizeDay "X" = none := by decide
example : parseNormalizedTime "18" "0" = some "18:00" := by decide
example : parseNormalizedTime "8" "5" = some "08:05" := by decide
example : parseNormalizedTime "24" "0" = none := by decide
example : parseNormalizedTime "a" "0" = none := by decide
example : normalizeStatus " SEMIPRESENCIAL " = .semipresencial := by decide
example : parseReserved "Sí" = true := by decide
example : parseReserved "0" = false := by decide

/-! ## The session regex (scrapingService.ts lines 343–395)

The two TS regexes

* anchored, in `parseSessionFromLine`:
  `^([A-Za-zÀ-ſ]{1,15})\s*(?:-|:)?\s*(\d{1,2})\s*:\s*(\d{1,2})\s*(?:-|:|a|al|hasta)\s*(\d{1,2})\s*:\s*(\d{1,2})$` with flag `i`
* the same pattern unanchored with flags `gi`, in `parseProfileSchedule`

are embedded as an explicit backtracking matcher: every quantifier
enumerates its candidate lengths greedily (longest first) and every
alternation is tried in written order, exactly the ECMAScript backtracking
priority, and the first complete success wins. -/

/-- The character class `[A-Za-zÀ-ſ]` (modelled literally; the
`i` flag adds no case partner that matters inside this range). -/
def isDayLetterChar (c : Char) : Bool :=
  ('A' ≤ c && c ≤ 'Z') || ('a' ≤ c && c ≤ 'z') || (0xC0 ≤ c.val && c.val ≤ 0x17F)

/-- Greedy candidates for `p{minN,maxN}` at the head of `cs`: the consumed
prefix and the rest, longest first. -/
def takeCands (p : Char → Bool) (minN maxN : Nat) (cs : List Char) : List (List Char × List Char) :=
  let run := min maxN (cs.takeWhile p).length
  (List.range (run + 1)).reverse.filterMap fun i =>
    if minN ≤ i then some (cs.take i, cs.drop i) else none

/-- Greedy candidates for `\s*`: the possible rests, longest consumption
first. -/
def wsCands (cs : List Char) : List (List Char) :=
  (takeCands isJsWhitespace 0 cs.length cs).map (fun x => x.2)

/-- Candidates for `(?:-|:)?` (greedy: present before absent). -/
def optDashColon (cs : List Char) : List (List Char) :=
  match cs with
  | c :: rest => if c = '-' || c = ':' then [rest, c :: rest] else [c :: rest]
  | [] => [[]]

/-- Match one literal character. -/
def litChar (c : Char) : List Char → Option (List Char)
  | x :: rest => if x = c then some rest else none
  | [] => none

/-- Strip a lower-case literal pattern case-insensitively. -/
def stripCI : List Char → List Char → Option (List Char)
  | [], cs => some cs
  | p :: ps, c :: cs => if c.toLower = p then stripCI ps cs else none
  | _ :: _, [] => none

/-- Candidates for `(?:-|:|a|al|hasta)` with flag `i`, in alternation
order. -/
def sepCands (cs : List Char) : List (List Char) :=
  [['-'], [':'], ['a'], ['a', 'l'], ['h', 'a', 's', 't', 'a']].filterMap
    fun p => stripCI p cs

/-- The five capture groups of the session regex. -/
structure RawMatch where
  day : String
  h1 : String
  m1 : String
  h2 : String
  m2 : String
deriving DecidableEq, Repr

/-- Attempt the session pattern at the start of `cs`. With `anchored` the
trailing `$` is enforced (backtracking on failure), as in
`parseSessionFromLine`; without it the first complete match is taken, as
for one `matchAll` step. Returns the captures and the remaining input. -/
def matchSessionCore (anchored : Bool) (cs : List Char) : Option (RawMatch × List Char) :=
  (takeCands isDayLetterChar 1 15 cs).findSome? fun g1 =>
  (wsCands g1.2).findSome? fun r2 =>
  (optDashColon r2).findSome? fun r3 =>
  (wsCands r3).findSome? fun r4 =>
  (takeCands Char.isDigit 1 2 r4).findSome? fun g2 =>
  (wsCands g2.2).findSome? fun r6 =>
  (litChar ':' r6).bind fun r7 =>
  (wsCands r7).findSome? fun r8 =>
  (takeCands Char.isDigit 1 2 r8).findSome? fun g3 =>
  (wsCands g3.2).findSome? fun r10 =>
  (sepCands r10).findSome? fun r11 =>
  (wsCands r11).findSome? fun r12 =>
  (takeCands Char.isDigit 1 2 r12).findSome? fun g4 =>
  (wsCands g4.2).findSome? fun r14 =>
  (litChar ':' r14).bind fun r15 =>
  (wsCands r15).findSome? fun r16 =>
  (takeCands Char.isDigit 1 2 r16).findSome? fun g5 =>
  if anchored && !g5.2.isEmpty then none
  else some (⟨String.mk g1.1, String.mk g2.1, String.mk g3.1,
              String.mk g4.1, String.mk g5.1⟩, g5.2)

/-- `ParsedSessionData` from scrapingService.ts. -/
structure ParsedSessionData where
  day : String
  startTime : String
  endTime : String
deriving DecidableEq, Repr

/-- `parseSessionFromLine` from scrapingService.ts: normalize the line,
match the anchored session regex, then resolve the day and both times;
any failure yields `null`. -/
def parseSessionFromLine (line : String) : Option ParsedSessionData :=
  let normalizedLine := normalizeWhitespace line
  if normalizedLine = "" then none
  else
    match matchSessionCore true normalizedLine.data with
    | none => none
    | some (m, _) =>
      match normalizeDay m.day, parseNormalizedTime m.h1 m.m1,
            parseNormalizedTime m.h2 m.m2 with
      | some day, some startTime, some endTime => some ⟨day, startTime, endTime⟩
      | _, _, _ => none

/-- `String.prototype.matchAll` for the session regex: scan left to right,
at each position try the pattern; on success record the captures and resume
after the match (every match consumes at least one character). `fuel`
bounds the number of scanning steps; `cs.length` always suffices. -/
def findMatchesAux : Nat → List Char → List RawMatch
  | 0, _ => []
  | _, [] => []
  | fuel + 1, c :: cs =>
    match matchSessionCore false (c :: cs) with
    | some (m, rest) => m :: findMatchesAux fuel rest
    | none => findMatchesAux fuel cs

/-- All matches of the global session regex in an (already normalized)
string. -/
def sessionMatches (s : String) : List RawMatch :=
  findMatchesAux s.data.length s.data

/-- The validation `parseProfileSchedule` applies to each match before
pushing a session: day resolves and both times are in range. -/
def validateMatch (m : RawMatch) : Option ParsedSessionData :=
  match normalizeDay m.day, parseNormalizedTime m.h1 m.m1,
        parseNormalizedTime m.h2 m.m2 with
  | some day, some startTime, some endTime => some ⟨day, startTime, endTime⟩
  | _, _, _ => none

/-- `parseProfileSchedule` from scrapingService.ts: normalize, take every
match of the global session regex, and keep those whose day and times
validate. -/
def parseProfileSchedule (rawSchedule : String) : List ParsedSessionData :=
  let normalized := normalizeWhitespace rawSchedule
  if normalized = "" then []
  else (sessionMatches normalized).filterMap validateMatch

example : parseSessionFromLine "L 07:30-10:20" = some ⟨"Lunes", "07:30", "10:20"⟩ := by decide
example : parseSessionFromLine "J 11:0-12:50" = some ⟨"Jueves", "11:00", "12:50"⟩ := by decide
example : parseSessionFromLine "B1-07" = none := by decide
example : parseSessionFromLine "K 8:00 al 9:00" = some ⟨"Martes", "08:00", "09:00"⟩ := by decide
example : parseProfileSchedule "Miercoles - 18:0:21:50" = [⟨"Miércoles", "18:00", "21:50"⟩] := by decide
example : parseProfileSchedule "Horario pendiente" = [] := by decide

/-! ## Matricula schedule cells (scrapingService.ts lines 397–449) -/

/-- Modelled from the spec: `generateId` from `src/src/utils.ts` is not
among the provided sources; the spec describes ids as opaque unique tokens,
modelled as a counter-indexed token supply. Call sites thread the counter
in program order. -/
def generateId (n : Nat) : String :=
  "uid-" ++ toString n

/-- `CourseSession` from src/src/types.ts (`src/unnamed/part_008`). -/
structure CourseSession where
  id : String
  day : String
  startTime : String
  endTime : String
  classroom : String
deriving DecidableEq, Repr

/-- Match `<br\s*\/?>` (flag `i`) at the head of the input, returning the
rest. -/
def tryBrTag (cs : List Char) : Option (List Char) :=
  match cs with
  | '<' :: c1 :: c2 :: rest =>
    if c1.toLower = 'b' && c2.toLower = 'r' then
      match rest.dropWhile isJsWhitespace with
      | '/' :: '>' :: r3 => some r3
      | '>' :: r3 => some r3
      | _ => none
    else none
  | _ => none

/-- `.replace(/<br\s*\/?>/gi, '\n')`. `fuel` bounds scanning steps; the
input length always suffices. -/
def replaceBrTags : Nat → List Char → List Char
  | 0, cs => cs
  | _, [] => []
  | fuel + 1, c :: cs =>
    match tryBrTag (c :: cs) with
    | some rest => '\n' :: replaceBrTags fuel rest
    | none => c :: replaceBrTags fuel cs

/-- Match `<\/(div|p|li|tr)>` (flag `i`) at the head of the input. -/
def tryCloseTag (cs : List Char) : Option (List Char) :=
  match cs with
  | '<' :: '/' :: rest =>
    [['d', 'i', 'v'], ['p'], ['l', 'i'], ['t', 'r']].findSome? fun tag =>
      (stripCI tag rest).bind fun r => litChar '>' r
  | _ => none

/-- `.replace(/<\/(div|p|li|tr)>/gi, '\n')`. -/
def replaceCloseTags : Nat → List Char → List Char
  | 0, cs => cs
  | _, [] => []
  | fuel + 1, c :: cs =>
    match tryCloseTag (c :: cs) with
    | some rest => '\n' :: replaceCloseTags fuel rest
    | none => c :: replaceCloseTags fuel cs

/-- `.replace(/<[^>]+>/g, ' ')`: a `<`, at least one non-`>` character and
a `>` collapse to one space; a `<` with no such closing `>` stays. -/
def stripTags : Nat → List Char → List Char
  | 0, cs => cs
  | _, [] => []
  | fuel + 1, c :: cs =>
    if c = '<' then
      let inside := cs.takeWhile fun x => x ≠ '>'
      match cs.drop inside.length with
      | '>' :: r2 =>
        if 1 ≤ inside.length then ' ' :: stripTags fuel r2
        else c :: stripTags fuel cs
      | _ => c :: stripTags fuel cs
    else c :: stripTags fuel cs

/-- The line-splitting pipeline of `parseMatriculaSchedule`: break tags and
block-closing tags become newlines, remaining tags become spaces, then the
text is split on `'\n'`, each line whitespace-normalized, and empty lines
dropped (`filter(Boolean)`). -/
def matriculaLines (rawScheduleHtml : String) : List String :=
  let s1 := replaceBrTags rawScheduleHtml.data.length rawScheduleHtml.data
  let s2 := replaceCloseTags s1.length s1
  let s3 := stripTags s2.length s2
  ((splitOnChar '\n' s3).map fun l => normalizeWhitespace (String.mk l)).filter
    fun l => l ≠ ""

/-- The line loop of `parseMatriculaSchedule`: each line matching the
session pattern starts a session; the inner `for` loop inspects only the
immediately following line (it always breaks on its first iteration) and
uses it as classroom unless it is itself a time line, else the `"Sin aula"`
sentinel. The id counter advances once per emitted session. -/
def sessionsFromLines : List String → Nat → List CourseSession
  | [], _ => []
  | line :: rest, ctr =>
    match parseSessionFromLine line with
    | none => sessionsFromLines rest ctr
    | some parsed =>
      let classroom :=
        match rest with
        | [] => "Sin aula"
        | nextLine :: _ =>
          if (parseSessionFromLine nextLine).isSome then "Sin aula" else nextLine
      ⟨generateId ctr, parsed.day, parsed.startTime, parsed.endTime, classroom⟩ ::
        sessionsFromLines rest (ctr + 1)

/-- `parseMatriculaSchedule` from scrapingService.ts. -/
def parseMatriculaSchedule (rawScheduleHtml : String) (ctr : Nat) : List CourseSession :=
  sessionsFromLines (matriculaLines rawScheduleHtml) ctr

/-- Each line of a list paired with the line immediately following it. -/
def withNext : List String → List (String × Option String)
  | [] => []
  | [l] => [(l, none)]
  | l :: l2 :: rest => (l, some l2) :: withNext (l2 :: rest)

/-- The spec's classroom rule: "the line immediately following a matched
time line — if it is itself not a time line — is taken as the classroom; if
absent or if the next line is itself a time pattern, classroom defaults to
the no-classroom sentinel". -/
def classroomRule (next : Option String) : String :=
  match next with
  | none => "Sin aula"
  | some nextLine =>
    if (parseSessionFromLine nextLine).isSome then "Sin aula" else nextLine

/-- Sessions a line list should produce according to the spec wording: one
per time line, with the classroom rule applied to its successor. -/
def matriculaSessionsSpec (lines : List String) : List (ParsedSessionData × String) :=
  (withNext lines).filterMap fun ln =>
    (parseSessionFromLine ln.1).map fun p => (p, classroomRule ln.2)

example : matriculaLines "L 07:30-10:20<br/>B1-07<br/>J 11:0-12:50<br>B2-01" =
    ["L 07:30-10:20", "B1-07", "J 11:0-12:50", "B2-01"] := by decide

/-! ## Student-profile row extractor (scrapingService.ts lines 439–449 and 545–663) -/

/-- Modelled from the spec: `DEFAULT_COURSE_COLOR` from `src/src/utils.ts`
is not among the provided sources; the spec only requires "a default hex
swatch assigned at scrape time". Its exact value is irrelevant to every
claim. -/
def DEFAULT_COURSE_COLOR : String :=
  "#default"

/-- `ScrapedCourse` from scrapingService.ts. -/
structure ScrapedCourse where
  originalCode : String
  name : String
  campus : String
  group : String
  professor : String
  credits : Int
  quota : Int
  reserved : Bool
  status : CourseStatus
  sessions : List CourseSession
  color : String
deriving DecidableEq, Repr

/-- `addUniqueSession` from scrapingService.ts: push the session unless one
with the same `(day, startTime, endTime)` triple is already present. -/
def addUniqueSession (sessions : List CourseSession) (session : CourseSession) : List CourseSession :=
  let alreadyExists := sessions.any fun existing =>
    existing.day = session.day && existing.startTime = session.startTime &&
      existing.endTime = session.endTime
  if alreadyExists then sessions else sessions ++ [session]

/-- One data row of the profile table. The DOM cell resolution of
`parseStudentProfile` (querySelector, `buildColumnMap`, `getCellFromRow`)
is not translatable; a row is abstracted by its physical cell count and the
text content of each resolved logical cell, which is exactly what the
extractor body from line 597 on consumes. -/
structure ProfileRow where
  cellCount : Nat
  codeText : String
  nameText : String
  groupText : String
  creditsText : String
  scheduleText : String
  classroomText : String
  professorText : String
  quotaText : String
  statusText : String
  reservedText : String
deriving DecidableEq, Repr

/-- Insertion-ordered lookup in the `courseMap` (a JS `Map`). -/
def mapLookup (m : List (String × ScrapedCourse)) (k : String) : Option ScrapedCourse :=
  (m.find? fun e => e.1 = k).map fun e => e.2

/-- In-place update of one `courseMap` entry, preserving insertion order. -/
def mapUpdate (m : List (String × ScrapedCourse)) (k : String)
    (f : ScrapedCourse → ScrapedCourse) : List (String × ScrapedCourse) :=
  m.map fun e => if e.1 = k then (e.1, f e.2) else e

/-- `const code = normalizeWhitespace(codeCell?.textContent) || 'Desconocido'`. -/
def rowCode (row : ProfileRow) : String :=
  jsOrDefault (normalizeWhitespace row.codeText) "Desconocido"

/-- `const name = normalizeWhitespace(nameCell?.textContent) || 'Desconocido'`. -/
def rowName (row : ProfileRow) : String :=
  jsOrDefault (normalizeWhitespace row.nameText) "Desconocido"

/-- `const group = normalizeWhitespace(groupCell?.textContent) || '0'`. -/
def rowGroup (row : ProfileRow) : String :=
  jsOrDefault (normalizeWhitespace row.groupText) "0"

/-- `const classroom = normalizeWhitespace(classroomCell?.textContent) || 'Sin aula'`. -/
def rowClassroom (row : ProfileRow) : String :=
  jsOrDefault (normalizeWhitespace row.classroomText) "Sin aula"

/-- `const professor = normalizeWhitespace(professorCell?.textContent) || 'Por asignar'`. -/
def rowProfessor (row : ProfileRow) : String :=
  jsOrDefault (normalizeWhitespace row.professorText) "Por asignar"

/-- `const courseKey = code + '-' + group`. -/
def rowKey (row : ProfileRow) : String :=
  rowCode row ++ "-" ++ rowGroup row

/-- The body of the `rows.forEach` of `parseStudentProfile`: skip rows with
fewer than 5 cells; normalize every field with its fallback; create the
course on the first occurrence of the `code-group` key, otherwise merge an
unseen professor name (comma-appended, skipping the `"Por asignar"`
sentinel); then add each parsed session with this row's classroom through
`addUniqueSession`. Schedule-attempt recording mutates only the report, not
the course map, and is modelled in the orchestrator section. -/
def processProfileRow (courseMap : List (String × ScrapedCourse)) (ctr : Nat)
    (row : ProfileRow) : List (String × ScrapedCourse) × Nat :=
  if row.cellCount < 5 then (courseMap, ctr)
  else
    let code := rowCode row
    let name := rowName row
    let group := rowGroup row
    let credits := parseInteger row.creditsText 0
    let scheduleText := normalizeWhitespace row.scheduleText
    let classroom := rowClassroom row
    let professor := rowProfessor row
    let quota := parseInteger row.quotaText 0
    let status := normalizeStatus row.statusText
    let reserved := parseReserved row.reservedText
    let courseKey := code ++ "-" ++ group
    let courseMap1 :=
      match mapLookup courseMap courseKey with
      | none =>
        courseMap ++ [(courseKey,
          ⟨code, name, "Cartago", group, professor, credits, quota, reserved,
           status, [], DEFAULT_COURSE_COLOR⟩)]
      | some course =>
        if course.professor ≠ professor && professor ≠ "Por asignar" then
          let currentProfs := (splitOnChar ',' course.professor.data).map
            fun p => normalizeWhitespace (String.mk p)
          if currentProfs.contains professor then courseMap
          else mapUpdate courseMap courseKey
            fun c => { c with professor := c.professor ++ ", " ++ professor }
        else courseMap
    let parsedSessions := parseProfileSchedule scheduleText
    if parsedSessions.length = 0 then (courseMap1, ctr)
    else
      parsedSessions.foldl
        (fun acc parsed =>
          let sess : CourseSession :=
            ⟨generateId acc.2, parsed.day, parsed.startTime, parsed.endTime, classroom⟩
          (mapUpdate acc.1 courseKey fun c =>
            { c with sessions := addUniqueSession c.sessions sess },
           acc.2 + 1))
        (courseMap1, ctr)

/-- The row loop of `parseStudentProfile`, returning the course map values
in insertion order (`Array.from(courseMap.values())`). -/
def parseStudentProfileRows (rows : List ProfileRow) (ctr : Nat) : List ScrapedCourse :=
  ((rows.foldl (fun acc row => processProfileRow acc.1 acc.2 row) ([], ctr)).1).map
    fun e => e.2

/-! ## The schedule hook (useSchedule.ts / src/unnamed/part_006) -/

/-- `Course` from src/src/types.ts (`src/unnamed/part_008`). -/
structure Course where
  id : String
  name : String
  campus : String
  group : String
  professor : String
  credits : Int
  quota : Int
  reserved : Bool
  status : CourseStatus
  sessions : List CourseSession
  isScheduled : Bool
  color : Option String
deriving DecidableEq, Repr

/-- `Schedule` from src/src/types.ts (`src/unnamed/part_008`). -/
structure Schedule where
  id : String
  name : String
  courses : List Course
  createdAt : Int
deriving DecidableEq, Repr

/-- `parseTime` from useSchedule.ts:
`const [hours, minutes] = time.split(':').map(Number); return hours * 60 + minutes;`.
A missing or non-numeric piece makes the result `NaN`, modelled as `none`. -/
def parseTime (time : String) : Option Int :=
  let parts := splitOnChar ':' time.data
  match (parts.get? 0).bind (fun p => jsNumberInt (String.mk p)),
        (parts.get? 1).bind (fun p => jsNumberInt (String.mk p)) with
  | some hours, some minutes => some (hours * 60 + minutes)
  | _, _ => none

/-- JS `<` where either side may be `NaN`: any comparison with `NaN` is
false. -/
def jsLt (a b : Option Int) : Bool :=
  match a, b with
  | some x, some y => x < y
  | _, _ => false

/-- JS `>` where either side may be `NaN`. -/
def jsGt (a b : Option Int) : Bool :=
  match a, b with
  | some x, some y => x > y
  | _, _ => false

/-- `checkSessionConflict` from useSchedule.ts: the candidate session
against every session of every scheduled course, same day and strict
half-open interval overlap `startA < endB && endA > startB`. -/
def checkSessionConflict (newSession : CourseSession) (existingCourses : List Course) : Bool :=
  let scheduledCourses := existingCourses.filter fun c => c.isScheduled
  scheduledCourses.any fun course =>
    course.sessions.any fun session =>
      if session.day ≠ newSession.day then false
      else
        jsLt (parseTime newSession.startTime) (parseTime session.endTime) &&
          jsGt (parseTime newSession.endTime) (parseTime session.startTime)

/-- The message thrown by `checkCourseConflicts`:
`Choque de horario: ${day} ${startTime} - ${endTime}`. -/
def conflictMessage (session : CourseSession) : String :=
  "Choque de horario: " ++ session.day ++ " " ++ session.startTime ++ " - " ++
    session.endTime

/-- The `for` loop of `checkCourseConflicts`: first conflicting session in
iteration order wins. -/
def firstConflict : List CourseSession → List Course → Option String
  | [], _ => none
  | session :: rest, existingCourses =>
    if checkSessionConflict session existingCourses then some (conflictMessage session)
    else firstConflict rest existingCourses

/-- `checkCourseConflicts` from useSchedule.ts. -/
def checkCourseConflicts (courseToCheck : Course) (existingCourses : List Course) : Option String :=
  firstConflict courseToCheck.sessions existingCourses

/-- `addCourse` from useSchedule.ts: append to the current schedule with
`isScheduled` forced to `false`; no-op when `currentScheduleId` is falsy
(`null` or the empty string). -/
def addCourse (schedules : List Schedule) (currentScheduleId : Option String)
    (course : Course) : List Schedule :=
  match currentScheduleId with
  | none => schedules
  | some cid =>
    if cid = "" then schedules
    else schedules.map fun s =>
      if s.id = cid then { s with courses := s.courses ++ [{ course with isScheduled := false }] }
      else s

/-- `addCourses` from useSchedule.ts: append the given courses verbatim to
the current schedule. -/
def addCourses (schedules : List Schedule) (currentScheduleId : Option String)
    (newCourses : List Course) : List Schedule :=
  match currentScheduleId with
  | none => schedules
  | some cid =>
    if cid = "" then schedules
    else schedules.map fun s =>
      if s.id = cid then { s with courses := s.courses ++ newCourses }
      else s

/-- The `schedules.map` of `updateCourse`; a conflict found at the current
schedule aborts the whole map by throwing. -/
def updateCourseGo : List Schedule → String → Course → Except String (List Schedule)
  | [], _, _ => .ok []
  | s :: rest, cid, uc =>
    if s.id = cid then
      match (if uc.isScheduled then
               checkCourseConflicts uc (s.courses.filter fun c => c.id ≠ uc.id)
             else none) with
      | some conflict => .error conflict
      | none =>
        match updateCourseGo rest cid uc with
        | .error e => .error e
        | .ok rest2 =>
          .ok ({ s with courses := s.courses.map fun c => if c.id = uc.id then uc else c } :: rest2)
    else
      match updateCourseGo rest cid uc with
      | .error e => .error e
      | .ok rest2 => .ok (s :: rest2)

/-- `updateCourse` from useSchedule.ts: result is the thrown message (if
any) and the schedule collection afterwards — a throw happens before
`setSchedules`, leaving the collection untouched. -/
def updateCourse (schedules : List Schedule) (currentScheduleId : Option String)
    (updatedCourse : Course) : Option String × List Schedule :=
  match currentScheduleId with
  | none => (none, schedules)
  | some cid =>
    if cid = "" then (none, schedules)
    else
      match updateCourseGo schedules cid updatedCourse with
      | .error e => (some e, schedules)
      | .ok newSchedules => (none, newSchedules)

/-- `toggleCourseStatus` from useSchedule.ts: activating a pending course
checks its sessions against the other courses of the current schedule and
throws on conflict before any state change; deactivating never checks. -/
def toggleCourseStatus (schedules : List Schedule) (currentScheduleId : Option String)
    (courseId : String) : Option String × List Schedule :=
  match currentScheduleId with
  | none => (none, schedules)
  | some cid =>
    if cid = "" then (none, schedules)
    else
      match schedules.find? fun s => s.id = cid with
      | none => (none, schedules)
      | some schedule =>
        match schedule.courses.find? fun c => c.id = courseId with
        | none => (none, schedules)
        | some course =>
          match (if ¬ course.isScheduled then
                   checkCourseConflicts course (schedule.courses.filter fun c => c.id ≠ courseId)
                 else none) with
          | some msg => (some msg, schedules)
          | none =>
            (none, schedules.map fun s =>
              if s.id = cid then
                { s with courses := s.courses.map fun c =>
                    if c.id = courseId then { c with isScheduled := ¬ c.isScheduled } else c }
              else s)

/-- Fresh session ids for an imported course
(`sessions: c.sessions.map(s => ({ ...s, id: generateId() }))`). -/
def sessionRenumber : List CourseSession → Nat → List CourseSession
  | [], _ => []
  | s :: rest, n => { s with id := generateId n } :: sessionRenumber rest (n + 1)

/-- The `.map` of `importCourses`: every kept course gets a fresh id,
`isScheduled := false`, and freshly renumbered session ids, with
`generateId` called in program order. -/
def importTransform : List Course → Nat → List Course
  | [], _ => []
  | c :: rest, ctr =>
    { c with id := generateId ctr, isScheduled := false,
             sessions := sessionRenumber c.sessions (ctr + 1) } ::
      importTransform rest (ctr + 1 + c.sessions.length)

/-- `importCourses` from the newer hook revision (`src/unnamed/part_006`
lines 212–248): drop source courses whose `name-group` key is already
present in the destination, throw when nothing is left, otherwise append
the transformed courses to the current schedule. -/
def importCourses (schedules : List Schedule) (currentScheduleId : Option String)
    (sourceScheduleId : String) (ctr : Nat) : Option String × List Schedule :=
  match currentScheduleId with
  | none => (none, schedules)
  | some cid =>
    if cid = "" then (none, schedules)
    else
      match schedules.find? fun s => s.id = sourceScheduleId with
      | none => (none, schedules)
      | some sourceSchedule =>
        match schedules.find? fun s => s.id = cid with
        | none => (none, schedules)
        | some currentSchedule =>
          let existingKeys := currentSchedule.courses.map fun c => c.name ++ "-" ++ c.group
          let kept := sourceSchedule.courses.filter
            fun c => ¬ existingKeys.contains (c.name ++ "-" ++ c.group)
          let newCourses := importTransform kept ctr
          if newCourses.length = 0 then
            (some "No hay cursos nuevos para importar (todos duplicados).", schedules)
          else
            (none, schedules.map fun s =>
              if s.id = cid then { s with courses := s.courses ++ newCourses } else s)

/-- `renameSchedule` from `src/unnamed/part_006` lines 250–304: snapshot,
optimistically apply the new name, await confirmation — abstracted as an
`Except` input since the simulated/remote call is outside the embedding —
and on failure restore the snapshot and rethrow the same failure. -/
def renameSchedule (schedules : List Schedule) (scheduleId newName : String)
    (confirmation : Except String Unit) : Option String × List Schedule :=
  let previousSchedules := schedules
  let applied := schedules.map fun s =>
    if s.id = scheduleId then { s with name := newName } else s
  match confirmation with
  | .ok _ => (none, applied)
  | .error e => (some e, previousSchedules)

/-- The spec's schedule invariant: among courses with `isScheduled = true`,
no two distinct courses have sessions on the same day whose `[start, end)`
intervals overlap. -/
def activeNoOverlap (courses : List Course) : Bool :=
  courses.all fun c1 => courses.all fun c2 =>
    if c1.id = c2.id then true
    else if c1.isScheduled && c2.isScheduled then
      ! c1.sessions.any fun s1 => c2.sessions.any fun s2 =>
        s1.day = s2.day &&
          jsLt (parseTime s1.startTime) (parseTime s2.endTime) &&
          jsGt (parseTime s1.endTime) (parseTime s2.startTime)
    else true

/-! ## Scraping orchestrator and report history (scrapingService.ts lines 115–220, 776–858) -/

/-- `STUDENT_PROFILE_ROOT_SELECTORS` from scrapingService.ts. -/
def STUDENT_PROFILE_ROOT_SELECTORS : List String :=
  ["#t_guia_horario", "#tguiaHorario", ".window_pg #tguiaHorario"]

/-- `MATRICULA_ROOT_SELECTORS` from scrapingService.ts. -/
def MATRICULA_ROOT_SELECTORS : List String :=
  ["#tBodyCursos", "table#tBodyCursos"]

/-- `MAX_REPORT_HISTORY` from scrapingService.ts. -/
def MAX_REPORT_HISTORY : Nat := 25

/-- `ScrapingSource` from scrapingService.ts. -/
inductive ScrapingSource where
  | studentProfile
  | matricula
  | unknown
deriving DecidableEq, Repr

/-- `ScrapingIssue` from scrapingService.ts (the `metadata` payload carries
no information any claim inspects and is not modelled). -/
structure ScrapingIssue where
  code : String
  message : String
deriving DecidableEq, Repr

/-- `ScrapingScheduleAttempt` from scrapingService.ts. -/
structure ScrapingScheduleAttempt where
  courseCode : String
  courseName : String
  group : String
  selector : String
  rawSchedule : String
  parsedSessions : Nat
  found : Bool
  reason : Option String
deriving DecidableEq, Repr

/-- `ScrapingAttemptReport` from scrapingService.ts. Timestamps are
abstract clock readings (`Nat`); `finishedAt` is initialized to the empty
string in TS, modelled as `none`. The `logs` array duplicates issues and
lifecycle milestones for pluggable loggers and affects nothing a claim
mentions, so it is not modelled. -/
structure ScrapingAttemptReport where
  attemptId : String
  startedAt : Nat
  finishedAt : Option Nat
  source : ScrapingSource
  selectorsMatched : List String
  totalRows : Nat
  parsedCourses : Nat
  schedulesFound : Nat
  schedulesMissing : Nat
  scheduleAttempts : List ScrapingScheduleAttempt
  issues : List ScrapingIssue
deriving DecidableEq, Repr

/-- The error classes of scrapingService.ts: `ScrapingStructureError`
(code `SCRAPING_STRUCTURE_NOT_FOUND`, carrying `selectorsTried`),
`ScrapingElementNotFoundError`, and any other thrown value. -/
inductive ScrapingError where
  | structureNotFound (message : String) (selectorsTried : List String)
  | elementNotFound (message elementType : String) (selectorsTried : List String)
  | unexpected (name message : String)
deriving DecidableEq, Repr

/-- The only issue codes the two row extractors ever push through
`context.addIssue` (lines 578, 700, 712 of scrapingService.ts). -/
inductive ExtractIssueCode where
  | rowSkipped
  | detailRowNotFound
  | groupRowsNotFound
deriving DecidableEq, Repr

/-- The `code` string of an extractor issue. -/
def extractIssueCodeString : ExtractIssueCode → String
  | .rowSkipped => "SCRAPING_ROW_SKIPPED"
  | .detailRowNotFound => "SCRAPING_DETAIL_ROW_NOT_FOUND"
  | .groupRowsNotFound => "SCRAPING_GROUP_ROWS_NOT_FOUND"

/-- What a row extractor contributes to the report through the context:
selector matches, the row count, schedule attempts, and extractor-level
issues. -/
structure ExtractEffects where
  selectorMatches : List String
  totalRows : Nat
  attempts : List ScrapingScheduleAttempt
  issues : List (ExtractIssueCode × String)
deriving DecidableEq, Repr

/-- How a row extractor finishes: normally with courses, or by throwing. -/
inductive ExtractOutcome where
  | ok (courses : List ScrapedCourse)
  | elemNotFound (message elementType : String) (selectorsTried : List String)
  | unexpected (name message : String)
deriving DecidableEq, Repr

/-- A row extractor's behaviour on one document: its report contribution
and how it finishes. (In TS a throwing extractor has applied only the
effects preceding the throw; the model applies them all, which no claim
distinguishes.) -/
structure ExtractBehavior where
  effects : ExtractEffects
  outcome : ExtractOutcome
deriving DecidableEq, Repr

/-- A parsed HTML document, as far as `parseTecHtmlWithReport` can observe
it. `DOMParser`/`querySelector` cannot be embedded; the document is
abstracted by the first matching root selector of each shape
(`findFirstMatchingSelector` over the two ordered selector lists) and by
the behaviour each row extractor would exhibit on it. -/
structure AbstractDoc where
  profileRoot : Option String
  matriculaRoot : Option String
  profileExtract : ExtractBehavior
  matriculaExtract : ExtractBehavior
deriving DecidableEq, Repr

/-- `context.addSelectorMatch`: append if not already present. -/
def addSelectorMatch (l : List String) (sel : String) : List String :=
  if l.contains sel then l else l ++ [sel]

/-- `createReport` from scrapingService.ts, at clock reading `t0`. -/
def createReport (idCtr t0 : Nat) : ScrapingAttemptReport :=
  ⟨generateId idCtr, t0, none, .unknown, [], 0, 0, 0, 0, [], []⟩

/-- Apply an extractor's report contribution: `addSelectorMatch` per
selector, `report.totalRows = rows.length`, `addScheduleAttempt` per
attempt (each bumps found or missing), `addIssue` per extractor issue. -/
def applyEffects (r : ScrapingAttemptReport) (e : ExtractEffects) : ScrapingAttemptReport :=
  { r with
    selectorsMatched := e.selectorMatches.foldl addSelectorMatch r.selectorsMatched,
    totalRows := e.totalRows,
    scheduleAttempts := r.scheduleAttempts ++ e.attempts,
    schedulesFound := r.schedulesFound + (e.attempts.filter fun a => a.found).length,
    schedulesMissing := r.schedulesMissing + (e.attempts.filter fun a => ! a.found).length,
    issues := r.issues ++ e.issues.map fun i => ⟨extractIssueCodeString i.1, i.2⟩ }

/-- An extractor's termination as the `try` block sees it. -/
def outcomeToExcept : ExtractOutcome → Except ScrapingError (List ScrapedCourse)
  | .ok courses => .ok courses
  | .elemNotFound m et sels => .error (.elementNotFound m et sels)
  | .unexpected n m => .error (.unexpected n m)

/-- The epilogue of `parseTecHtmlWithReport` (lines 837–853): set
`parsedCourses` and `finishedAt`, store a snapshot in the bounded
most-recent-first history (`storeReportInHistory`: `unshift` then truncate
to `MAX_REPORT_HISTORY`), and return courses plus report. `cloneReport` is
the identity in a pure model. -/
def finishReport (r : ScrapingAttemptReport) (courses : List ScrapedCourse) (t1 : Nat)
    (history : List ScrapingAttemptReport) :
    Except ScrapingError (List ScrapedCourse × ScrapingAttemptReport) × List ScrapingAttemptReport :=
  let r2 := { r with parsedCourses := courses.length, finishedAt := some t1 }
  (.ok (courses, r2), (r2 :: history).take MAX_REPORT_HISTORY)

/-- The structural-error message of line 801. -/
def structureErrorMessage : String :=
  "No se encontro estructura compatible para scraping (ni expediente ni matricula)."

/-- `parseTecHtmlWithReport` from scrapingService.ts: detection (profile
before matricula, first root selector match recorded), extraction, then
the `catch` ladder — a structure error is recorded as an issue and
rethrown only under `options.throwOnStructureError`; element-not-found and
unexpected errors are recorded and swallowed. The result pairs the
function's outcome with the report history after the call; a rethrow
happens before `finishedAt` is set and before `storeReportInHistory`. -/
def parseTecHtmlWithReport (doc : AbstractDoc) (throwOnStructureError : Bool)
    (t0 t1 idCtr : Nat) (history : List ScrapingAttemptReport) :
    Except ScrapingError (List ScrapedCourse × ScrapingAttemptReport) × List ScrapingAttemptReport :=
  let r0 := createReport idCtr t0
  let tryStep : ScrapingAttemptReport × Except ScrapingError (List ScrapedCourse) :=
    match doc.profileRoot with
    | some sel =>
      let r1 := applyEffects
        { r0 with source := .studentProfile,
                  selectorsMatched := addSelectorMatch r0.selectorsMatched sel }
        doc.profileExtract.effects
      (r1, outcomeToExcept doc.profileExtract.outcome)
    | none =>
      match doc.matriculaRoot with
      | some sel =>
        let r1 := applyEffects
          { r0 with source := .matricula,
                    selectorsMatched := addSelectorMatch r0.selectorsMatched sel }
          doc.matriculaExtract.effects
        (r1, outcomeToExcept doc.matriculaExtract.outcome)
      | none =>
        (r0, .error (.structureNotFound structureErrorMessage
          (STUDENT_PROFILE_ROOT_SELECTORS ++ MATRICULA_ROOT_SELECTORS)))
  match tryStep with
  | (r, .ok courses) => finishReport r courses t1 history
  | (r, .error (.structureNotFound msg sels)) =>
    let r2 := { r with issues := r.issues ++ [⟨"SCRAPING_STRUCTURE_NOT_FOUND", msg⟩] }
    if throwOnStructureError then (.error (.structureNotFound msg sels), history)
    else finishReport r2 [] t1 history
  | (r, .error (.elementNotFound msg _ _)) =>
    finishReport { r with issues := r.issues ++ [⟨"SCRAPING_ELEMENT_NOT_FOUND", msg⟩] } [] t1 history
  | (r, .error (.unexpected _ msg)) =>
    finishReport { r with issues := r.issues ++ [⟨"SCRAPING_UNEXPECTED_ERROR", msg⟩] } [] t1 history

/-! ## Claim C9: rename rollback -/

/-- C9: `renameSchedule` applies the new name optimistically; when the
awaited confirmation fails it restores the schedule collection to the
pre-call snapshot (so every schedule's name is exactly as before) and
re-raises the failure, whose message the caller receives; on successful
confirmation the new name remains applied. -/
theorem claim_C9 :
    ∀ (schedules : List Schedule) (scheduleId newName e : String),
      renameSchedule schedules scheduleId newName (.error e) = (some e, schedules) ∧
      renameSchedule schedules scheduleId newName (.ok ()) =
        (none, schedules.map fun s =>
          if s.id = scheduleId then { s with name := newName } else s) := by
  intro schedules scheduleId newName e
  exact ⟨rfl, rfl⟩

/-! ## Claim C10: `addCourses` bypasses the conflict check -/

/-- A concrete active course, Monday 07:00–09:00. -/
def demoActive : Course :=
  ⟨"c1", "Calculo", "Cartago", "1", "P1", 4, 20, false, .presencial,
   [⟨"s1", "Lunes", "07:00", "09:00", "A1"⟩], true, none⟩

/-- A concrete course arriving already flagged `isScheduled = true` whose
Monday 08:00–10:00 session overlaps `demoActive`. -/
def demoClash : Course :=
  ⟨"c2", "Fisica", "Cartago", "1", "P2", 3, 20, false, .presencial,
   [⟨"s2", "Lunes", "08:00", "10:00", "A2"⟩], true, none⟩

/-- A schedule holding only `demoActive`. -/
def demoSchedule : Schedule :=
  ⟨"d", "Horario", [demoActive], 0⟩

/-- C10: `addCourses` appends the given courses verbatim (flags unchanged,
no conflict check), so passing in an already-active overlapping course
breaks the no-overlap-among-active-courses invariant; `addCourse`, in
contrast, forces `isScheduled := false` on insertion. -/
theorem claim_C10 :
    (∀ (schedules : List Schedule) (cid : String), cid ≠ "" →
      ∀ newCourses, addCourses schedules (some cid) newCourses =
        schedules.map fun s =>
          if s.id = cid then { s with courses := s.courses ++ newCourses } else s) ∧
    (∀ (schedules : List Schedule) (cid : String), cid ≠ "" →
      ∀ course, addCourse schedules (some cid) course =
        schedules.map fun s =>
          if s.id = cid then
            { s with courses := s.courses ++ [{ course with isScheduled := false }] }
          else s) ∧
    (demoClash.isScheduled = true ∧
      activeNoOverlap demoSchedule.courses = true ∧
      addCourses [demoSchedule] (some "d") [demoClash] =
        [{ demoSchedule with courses := [demoActive, demoClash] }] ∧
      activeNoOverlap [demoActive, demoClash] = false) := by
  refine ⟨?_, ?_, ?_⟩
  · intro schedules cid hcid newCourses
    simp [addCourses, hcid]
  · intro schedules cid hcid course
    simp [addCourse, hcid]
  · exact ⟨by decide, by decide, by decide, by decide⟩

/-- Witness for C10 at concrete inputs. -/
theorem claim_C10_witness :
    addCourses [demoSchedule] (some "d") [demoClash] =
      [{ demoSchedule with courses := demoSchedule.courses ++ [demoClash] }] ∧
    addCourse [demoSchedule] (some "d") demoClash =
      [{ demoSchedule with
          courses := demoSchedule.courses ++ [{ demoClash with isScheduled := false }] }] := by
  constructor
  · rw [claim_C10.1 [demoSchedule] "d" (by decide) [demoClash]]
    decide
  · rw [claim_C10.2.1 [demoSchedule] "d" (by decide) demoClash]
    decide

/-! ## Claim C6: matricula cell splitting and the classroom rule -/

/-- Unfolding lemma for one step of the session loop. -/
theorem sessionsFromLines_cons (line : String) (rest : List String) (ctr : Nat) :
    sessionsFromLines (line :: rest) ctr =
      match parseSessionFromLine line with
      | none => sessionsFromLines rest ctr
      | some parsed =>
        ⟨generateId ctr, parsed.day, parsed.startTime, parsed.endTime,
          match rest with
          | [] => "Sin aula"
          | nextLine :: _ =>
            if (parseSessionFromLine nextLine).isSome then "Sin aula" else nextLine⟩ ::
          sessionsFromLines rest (ctr + 1) := rfl

/-- Unfolding lemma for the spec-side session list. -/
theorem matriculaSessionsSpec_cons2 (line l2 : String) (rest2 : List String) :
    matriculaSessionsSpec (line :: l2 :: rest2) =
      (match parseSessionFromLine line with
       | none => []
       | some p => [(p, classroomRule (some l2))]) ++ matriculaSessionsSpec (l2 :: rest2) := by
  cases hp : parseSessionFromLine line <;>
    simp [matriculaSessionsSpec, withNext, hp]

/-- The session loop agrees with the spec's per-line description: one
session per time line, whose classroom is the immediately following line
when that line is not itself a time line, else the sentinel. -/
theorem sessionsFromLines_spec (lines : List String) :
    ∀ ctr, (sessionsFromLines lines ctr).map
        (fun s => ((⟨s.day, s.startTime, s.endTime⟩ : ParsedSessionData), s.classroom)) =
      matriculaSessionsSpec lines := by
  induction lines with
  | nil => intro ctr; rfl
  | cons line rest ih =>
    intro ctr
    cases rest with
    | nil =>
      cases hp : parseSessionFromLine line <;>
        simp [sessionsFromLines, matriculaSessionsSpec, withNext, classroomRule, hp]
    | cons l2 rest2 =>
      rw [sessionsFromLines_cons, matriculaSessionsSpec_cons2]
      cases hp : parseSessionFromLine line <;>
        simp [hp, classroomRule, ih]

/-- C6: matricula schedule parsing splits the cell's inner HTML into
plain-text lines at `<br>` variants and block-closing tags, starts a
session at every line matching the day+time pattern, and takes the
immediately following non-time line as the classroom, else the `"Sin
aula"` sentinel; the worked example yields exactly the two sessions
(Monday 07:30–10:20, "B1-07") and (Thursday 11:00–12:50, "B2-01"). -/
theorem claim_C6 :
    parseMatriculaSchedule "L 07:30-10:20<br/>B1-07<br/>J 11:0-12:50<br>B2-01" 0 =
      [⟨generateId 0, "Lunes", "07:30", "10:20", "B1-07"⟩,
       ⟨generateId 1, "Jueves", "11:00", "12:50", "B2-01"⟩] ∧
    (∀ (rawScheduleHtml : String) (ctr : Nat),
      (parseMatriculaSchedule rawScheduleHtml ctr).map
          (fun s => ((⟨s.day, s.startTime, s.endTime⟩ : ParsedSessionData), s.classroom)) =
        matriculaSessionsSpec (matriculaLines rawScheduleHtml)) := by
  constructor
  · decide
  · intro rawScheduleHtml ctr
    exact sessionsFromLines_spec (matriculaLines rawScheduleHtml) ctr

/-! ## Claim C8: `normalizeDay` -/

/-- Collapsing whitespace never lengthens a string. -/
theorem collapseWS_length_le (cs : List Char) : (collapseWS cs).length ≤ cs.length := by
  induction cs with
  | nil => simp [collapseWS]
  | cons c cs ih =>
    cases cs with
    | nil => simp only [collapseWS]; split <;> simp
    | cons c2 rest =>
      by_cases h : (isJsWhitespace c && isJsWhitespace c2) = true
      · simp only [collapseWS, h, if_true]
        exact le_trans ih (Nat.le_succ _)
      · simp only [collapseWS, h, if_false, List.length_cons]
        exact Nat.succ_le_succ ih

/-- `dropWhile` never lengthens a list. -/
theorem dropWhile_length_le {α : Type} (p : α → Bool) (l : List α) :
    (l.dropWhile p).length ≤ l.length := by
  induction l with
  | nil => simp
  | cons c cs ih =>
    by_cases h : p c
    · simp only [List.dropWhile_cons, h, if_true]
      exact le_trans ih (Nat.le_succ _)
    · simp [List.dropWhile_cons, h]

/-- Trimming never lengthens a string. -/
theorem dropEndSpaces_length_le (cs : List Char) : (dropEndSpaces cs).length ≤ cs.length := by
  unfold dropEndSpaces
  simp only [List.length_reverse]
  exact le_trans (dropWhile_length_le _ _)
    (by simpa using dropWhile_length_le (fun c => c = ' ') cs)

/-- `normalizeWhitespace` never lengthens a string. -/
theorem normalizeWhitespace_length_le (s : String) :
    (normalizeWhitespace s).data.length ≤ s.data.length := by
  simpa [normalizeWhitespace] using
    le_trans (dropEndSpaces_length_le (collapseWS s.data)) (collapseWS_length_le s.data)

/-- `DAY_CODE_MAP` only ever hits on single-character keys. -/
theorem DAY_CODE_MAP_eq_none (k : String) (h : k.data.length ≠ 1) : DAY_CODE_MAP k = none := by
  unfold DAY_CODE_MAP
  split_ifs with h1 h2 h3 h4 h5 h6 h7 <;>
    first
      | rfl
      | (exfalso; apply h; first
          | (rw [h1]; rfl) | (rw [h2]; rfl) | (rw [h3]; rfl) | (rw [h4]; rfl)
          | (rw [h5]; rfl) | (rw [h6]; rfl) | (rw [h7]; rfl))

/-- Any input whose comparable form (of its trimmed value, as
`normalizeDay` computes it) is a day-name key resolves to that key's
canonical day: the single-letter branch cannot fire because the cleaned
input has at least two characters. -/
theorem normalizeDay_of_name (key canon : String) (hmap : DAY_NAME_MAP key = some canon)
    (hlen : 2 ≤ key.data.length) :
    ∀ s : String, normalizeComparable (normalizeWhitespace s) = key →
      normalizeDay s = some canon := by
  intro s hcomp
  have hdata : ((normalizeWhitespace (normalizeWhitespace s)).data.map jsLowerDeaccent) = key.data := by
    have := congrArg String.data hcomp
    simpa [normalizeComparable] using this
  have hlen2 : (normalizeWhitespace (normalizeWhitespace s)).data.length = key.data.length := by
    rw [← hdata, List.length_map]
  have hclen : 2 ≤ (normalizeWhitespace s).data.length :=
    le_trans (hlen2 ▸ hlen) (normalizeWhitespace_length_le (normalizeWhitespace s))
  have hne : ¬ normalizeWhitespace s = "" := by
    intro h0
    rw [h0] at hclen
    simp at hclen
  have hcode : DAY_CODE_MAP (jsToUpper (normalizeWhitespace s)) = none := by
    apply DAY_CODE_MAP_eq_none
    simp only [jsToUpper, List.length_map]
    omega
  simp [normalizeDay, hne, hcode, hcomp, hmap]

/-- C8: `normalizeDay` maps the seven single-letter codes, in either case,
through the fixed non-alphabetical assignment L→Lunes, K→Martes,
M→Miércoles, J→Jueves, V→Viernes, S→Sábado, D→Domingo; it maps full day
names accent-insensitively (any input whose trimmed comparable form equals
the day-name key) to the same canonical strings; and every other input —
the empty string, and any input hitting neither map — yields `null`. -/
theorem claim_C8 :
    (normalizeDay "L" = some "Lunes" ∧ normalizeDay "l" = some "Lunes" ∧
     normalizeDay "K" = some "Martes" ∧ normalizeDay "k" = some "Martes" ∧
     normalizeDay "M" = some "Miércoles" ∧ normalizeDay "m" = some "Miércoles" ∧
     normalizeDay "J" = some "Jueves" ∧ normalizeDay "j" = some "Jueves" ∧
     normalizeDay "V" = some "Viernes" ∧ normalizeDay "v" = some "Viernes" ∧
     normalizeDay "S" = some "Sábado" ∧ normalizeDay "s" = some "Sábado" ∧
     normalizeDay "D" = some "Domingo" ∧ normalizeDay "d" = some "Domingo") ∧
    ((∀ s, normalizeComparable (normalizeWhitespace s) = "lunes" →
        normalizeDay s = some "Lunes") ∧
     (∀ s, normalizeComparable (normalizeWhitespace s) = "martes" →
        normalizeDay s = some "Martes") ∧
     (∀ s, normalizeComparable (normalizeWhitespace s) = "miercoles" →
        normalizeDay s = some "Miércoles") ∧
     (∀ s, normalizeComparable (normalizeWhitespace s) = "jueves" →
        normalizeDay s = some "Jueves") ∧
     (∀ s, normalizeComparable (normalizeWhitespace s) = "viernes" →
        normalizeDay s = some "Viernes") ∧
     (∀ s, normalizeComparable (normalizeWhitespace s) = "sabado" →
        normalizeDay s = some "Sábado") ∧
     (∀ s, normalizeComparable (normalizeWhitespace s) = "domingo" →
        normalizeDay s = some "Domingo")) ∧
    normalizeDay "" = none ∧
    (∀ s, DAY_CODE_MAP (jsToUpper (normalizeWhitespace s)) = none →
      DAY_NAME_MAP (normalizeComparable (normalizeWhitespace s)) = none →
      normalizeDay s = none) := by
  refine ⟨by decide, ?_, by decide, ?_⟩
  · exact ⟨normalizeDay_of_name "lunes" "Lunes" (by decide) (by decide),
      normalizeDay_of_name "martes" "Martes" (by decide) (by decide),
      normalizeDay_of_name "miercoles" "Miércoles" (by decide) (by decide),
      normalizeDay_of_name "jueves" "Jueves" (by decide) (by decide),
      normalizeDay_of_name "viernes" "Viernes" (by decide) (by decide),
      normalizeDay_of_name "sabado" "Sábado" (by decide) (by decide),
      normalizeDay_of_name "domingo" "Domingo" (by decide) (by decide)⟩
  · intro s h1 h2
    by_cases hcl : normalizeWhitespace s = ""
    · simp [normalizeDay, hcl]
    · simp [normalizeDay, hcl, h1, h2]

/-- Witness for C8: the accent-insensitive name path and the null path at
concrete inputs. -/
theorem claim_C8_witness :
    normalizeDay " MIÉRCOLES " = some "Miércoles" ∧ normalizeDay "feriado" = none :=
  ⟨claim_C8.2.1.2.2.1 " MIÉRCOLES " (by decide),
   claim_C8.2.2.2 "feriado" (by decide) (by decide)⟩

/-! ## Claim C5: profile schedule extraction -/

/-- Inversion for `parseNormalizedTime`: a produced string is the
zero-padded rendering of components with hour in [0,23] and minute in
[0,59]. -/
theorem parseNormalizedTime_some (hT mT out : String)
    (h : parseNormalizedTime hT mT = some out) :
    ∃ hh mm : Int, jsParseInt hT = some hh ∧ jsParseInt mT = some mm ∧
      0 ≤ hh ∧ hh ≤ 23 ∧ 0 ≤ mm ∧ mm ≤ 59 ∧
      out = pad2 hh.toNat ++ ":" ++ pad2 mm.toNat := by
  unfold parseNormalizedTime at h
  cases h1 : jsParseInt hT with
  | none => rw [h1] at h; simp at h
  | some hh =>
    cases h2 : jsParseInt mT with
    | none => rw [h1, h2] at h; simp at h
    | some mm =>
      rw [h1, h2] at h
      simp only [] at h
      split at h
      · exact absurd h (by simp)
      · rename_i hcond
        refine ⟨hh, mm, rfl, rfl, ?_, ?_, ?_, ?_, ?_⟩ <;>
          first
            | (simp only [Bool.or_eq_true, decide_eq_true_eq, not_or] at hcond; omega)
            | exact (Option.some.injEq _ _ ▸ h).symm ▸ rfl

/-- C5: profile-format schedule parsing returns one session per global
regex match whose day token resolves and whose components validate
(hour 0–23, minute 0–59), zero-padded to `HH:MM`; in particular
`"Miercoles - 18:0:21:50"` yields exactly one Wednesday 18:00–21:50
session, and a string with two concatenated day/time patterns yields two
sessions. -/
theorem claim_C5 :
    parseProfileSchedule "Miercoles - 18:0:21:50" =
      [⟨"Miércoles", "18:00", "21:50"⟩] ∧
    parseProfileSchedule "Lunes - 18:0:21:50 Aula B1 Jueves 7:5 a 9:30" =
      [⟨"Lunes", "18:00", "21:50"⟩, ⟨"Jueves", "07:05", "09:30"⟩] ∧
    (∀ raw, parseProfileSchedule raw =
      (sessionMatches (normalizeWhitespace raw)).filterMap validateMatch) ∧
    (∀ m s, validateMatch m = some s →
      normalizeDay m.day = some s.day ∧
      (∃ hh mm : Int, jsParseInt m.h1 = some hh ∧ jsParseInt m.m1 = some mm ∧
        0 ≤ hh ∧ hh ≤ 23 ∧ 0 ≤ mm ∧ mm ≤ 59 ∧
        s.startTime = pad2 hh.toNat ++ ":" ++ pad2 mm.toNat) ∧
      (∃ hh mm : Int, jsParseInt m.h2 = some hh ∧ jsParseInt m.m2 = some mm ∧
        0 ≤ hh ∧ hh ≤ 23 ∧ 0 ≤ mm ∧ mm ≤ 59 ∧
        s.endTime = pad2 hh.toNat ++ ":" ++ pad2 mm.toNat)) := by
  refine ⟨by decide, by decide, ?_, ?_⟩
  · intro raw
    by_cases h : normalizeWhitespace raw = ""
    · rw [parseProfileSchedule, if_pos h, h]
      decide
    · rw [parseProfileSchedule, if_neg h]
  · intro m s h
    unfold validateMatch at h
    cases hd : normalizeDay m.day with
    | none => rw [hd] at h; simp at h
    | some day =>
      cases h1 : parseNormalizedTime m.h1 m.m1 with
      | none => rw [hd, h1] at h; simp at h
      | some st =>
        cases h2 : parseNormalizedTime m.h2 m.m2 with
        | none => rw [hd, h1, h2] at h; simp at h
        | some en =>
          rw [hd, h1, h2] at h
          simp only [Option.some.injEq] at h
          subst h
          exact ⟨by simp [hd], parseNormalizedTime_some _ _ _ h1,
            parseNormalizedTime_some _ _ _ h2⟩

/-- Witness for C5 at a concrete match. -/
theorem claim_C5_witness :
    normalizeDay "Miercoles" = some "Miércoles" :=
  (claim_C5.2.2.2 ⟨"Miercoles", "18", "0", "21", "50"⟩
    ⟨"Miércoles", "18:00", "21:50"⟩ (by decide)).1

/-! ## Claim C3: import deduplication -/

/-- The source courses `importCourses` keeps: those whose `name-group`
concatenated key is not already present in the destination. -/
def importCoursesKept (cur src : Schedule) : List Course :=
  src.courses.filter fun c =>
    ¬ (cur.courses.map fun d => d.name ++ "-" ++ d.group).contains (c.name ++ "-" ++ c.group)

/-- The import transformation preserves the number of courses. -/
theorem importTransform_length (l : List Course) : ∀ n, (importTransform l n).length = l.length := by
  induction l with
  | nil => intro n; rfl
  | cons hd tl ih => intro n; simp [importTransform, ih]

/-- Renumbered sessions all carry supply-generated ids. -/
theorem sessionRenumber_mem (l : List CourseSession) :
    ∀ n sess, sess ∈ sessionRenumber l n → ∃ k, sess.id = generateId k := by
  induction l with
  | nil => intro n sess h; simp [sessionRenumber] at h
  | cons hd tl ih =>
    intro n sess h
    simp only [sessionRenumber, List.mem_cons] at h
    rcases h with h | h
    · exact ⟨n, by rw [h]⟩
    · exact ih (n + 1) sess h

/-- Imported courses are pending and carry supply-generated course and
session ids. -/
theorem importTransform_mem (l : List Course) :
    ∀ n c, c ∈ importTransform l n →
      c.isScheduled = false ∧ (∃ k, c.id = generateId k) ∧
        ∀ sess ∈ c.sessions, ∃ k, sess.id = generateId k := by
  induction l with
  | nil => intro n c h; simp [importTransform] at h
  | cons hd tl ih =>
    intro n c h
    simp only [importTransform, List.mem_cons] at h
    rcases h with h | h
    · subst h
      exact ⟨rfl, ⟨n, rfl⟩, fun sess hs => sessionRenumber_mem hd.sessions (n + 1) sess hs⟩
    · exact ih (n + 1 + hd.sessions.length) c h

/-- `importCourses` in terms of the kept list, once source and destination
are found. -/
theorem importCourses_eq (schedules : List Schedule) (cid sid : String) (ctr : Nat)
    (src cur : Schedule) (hcid : ¬ cid = "")
    (hs : schedules.find? (fun s => s.id = sid) = some src)
    (hc : schedules.find? (fun s => s.id = cid) = some cur) :
    importCourses schedules (some cid) sid ctr =
      (if (importTransform (importCoursesKept cur src) ctr).length = 0 then
        (some "No hay cursos nuevos para importar (todos duplicados).", schedules)
      else
        (none, schedules.map fun s =>
          if s.id = cid then
            { s with courses := s.courses ++ importTransform (importCoursesKept cur src) ctr }
          else s)) := by
  simp only [importCourses, importCoursesKept, hs, hc, if_neg hcid]

/-- C3 counterexample: the destination holds `(name, group) = ("A-1", "2")`
and the source holds `("A", "1-2")` — distinct pairs, but the concatenated
keys coincide, so `importCourses` excludes the course and throws the
"nothing new to import" error even though no source course's `(name, group)`
pair equals a destination course's pair. -/
def dupDestCourse : Course :=
  ⟨"x1", "A-1", "Cartago", "2", "P", 0, 0, false, .presencial, [], false, none⟩

/-- The source course of the C3 counterexample. -/
def dupSrcCourse : Course :=
  ⟨"x2", "A", "Cartago", "1-2", "P", 0, 0, false, .presencial, [], false, none⟩

/-- Destination schedule of the C3 counterexample. -/
def dupDestSchedule : Schedule := ⟨"d", "Destino", [dupDestCourse], 0⟩

/-- Source schedule of the C3 counterexample. -/
def dupSrcSchedule : Schedule := ⟨"s", "Origen", [dupSrcCourse], 0⟩

/-- C3 as stated is false: every `(name, group)` pair of the source differs
from every pair in the destination, yet the import throws the
"nothing new to import" error (and leaves the collection unchanged),
because exclusion compares the concatenated `name-"-"-group` keys. -/
theorem claim_C3_counterexample :
    (dupSrcCourse.name, dupSrcCourse.group) ≠ (dupDestCourse.name, dupDestCourse.group) ∧
    dupSrcCourse.name ++ "-" ++ dupSrcCourse.group =
      dupDestCourse.name ++ "-" ++ dupDestCourse.group ∧
    importCourses [dupDestSchedule, dupSrcSchedule] (some "d") "s" 0 =
      (some "No hay cursos nuevos para importar (todos duplicados).",
       [dupDestSchedule, dupSrcSchedule]) := by
  exact ⟨by decide, by decide, by decide⟩

/-- C3 amended: exclusion is by equality of the concatenated
`name ++ "-" ++ group` key (pairs agreeing on that key, not the pair
itself); kept courses are inserted pending with freshly generated course
and session ids; the "nothing new to import" error is thrown, with the
collection unchanged, exactly when every source course is excluded by that
key. -/
theorem claim_C3_amended :
    ∀ (schedules : List Schedule) (cid sid : String) (ctr : Nat) (src cur : Schedule),
      cid ≠ "" →
      schedules.find? (fun s => s.id = sid) = some src →
      schedules.find? (fun s => s.id = cid) = some cur →
      (importCoursesKept cur src = [] →
        importCourses schedules (some cid) sid ctr =
          (some "No hay cursos nuevos para importar (todos duplicados).", schedules)) ∧
      (importCoursesKept cur src ≠ [] →
        importCourses schedules (some cid) sid ctr =
          (none, schedules.map fun s =>
            if s.id = cid then
              { s with courses :=
                  s.courses ++ importTransform (importCoursesKept cur src) ctr }
            else s)) ∧
      (∀ c ∈ importTransform (importCoursesKept cur src) ctr,
        c.isScheduled = false ∧ (∃ k, c.id = generateId k) ∧
          ∀ sess ∈ c.sessions, ∃ k, sess.id = generateId k) ∧
      (∀ c ∈ src.courses, c ∉ importCoursesKept cur src ↔
        ∃ d ∈ cur.courses, d.name ++ "-" ++ d.group = c.name ++ "-" ++ c.group) := by
  intro schedules cid sid ctr src cur hcid hs hc
  refine ⟨?_, ?_, ?_, ?_⟩
  · intro hk
    rw [importCourses_eq schedules cid sid ctr src cur hcid hs hc, hk]
    simp [importTransform]
  · intro hk
    rw [importCourses_eq schedules cid sid ctr src cur hcid hs hc, if_neg]
    rw [importTransform_length]
    simpa using hk
  · exact fun c hmem => importTransform_mem (importCoursesKept cur src) ctr c hmem
  · intro c hmem
    simp [importCoursesKept, List.mem_filter, hmem]

/-- Witness for the amended C3 at the counterexample schedules. -/
theorem claim_C3_amended_witness :
    importCourses [dupDestSchedule, dupSrcSchedule] (some "d") "s" 0 =
      (some "No hay cursos nuevos para importar (todos duplicados).",
       [dupDestSchedule, dupSrcSchedule]) :=
  (claim_C3_amended [dupDestSchedule, dupSrcSchedule] "d" "s" 0 dupSrcSchedule
    dupDestSchedule (by decide) (by decide) (by decide)).1 (by decide)

/-! ## Claim C7: student-profile row merging -/

/-- C7: in the student-profile extractor, a session whose
`(day, startTime, endTime)` triple is already present is not added again;
otherwise it is appended; and two rows sharing the `(code, group)` key —
the second bringing an unseen professor name and the identical parsed
session — produce one course with one session and the comma-merged
professor field. -/
theorem claim_C7 :
    (∀ (sessions : List CourseSession) (session : CourseSession),
      (sessions.any fun existing =>
        existing.day = session.day && existing.startTime = session.startTime &&
          existing.endTime = session.endTime) = true →
      addUniqueSession sessions session = sessions) ∧
    (∀ (sessions : List CourseSession) (session : CourseSession),
      (sessions.any fun existing =>
        existing.day = session.day && existing.startTime = session.startTime &&
          existing.endTime = session.endTime) = false →
      addUniqueSession sessions session = sessions ++ [session]) ∧
    (∀ (r1 r2 : ProfileRow) (ctr : Nat) (p : ParsedSessionData),
      5 ≤ r1.cellCount → 5 ≤ r2.cellCount →
      rowCode r2 = rowCode r1 →
      rowGroup r2 = rowGroup r1 →
      parseProfileSchedule (normalizeWhitespace r1.scheduleText) = [p] →
      parseProfileSchedule (normalizeWhitespace r2.scheduleText) = [p] →
      rowProfessor r1 ≠ rowProfessor r2 →
      rowProfessor r2 ≠ "Por asignar" →
      ((splitOnChar ',' (rowProfessor r1).data).map fun q =>
        normalizeWhitespace (String.mk q)).contains (rowProfessor r2) = false →
      parseStudentProfileRows [r1, r2] ctr =
        [{ originalCode := rowCode r1, name := rowName r1, campus := "Cartago",
           group := rowGroup r1,
           professor := rowProfessor r1 ++ ", " ++ rowProfessor r2,
           credits := parseInteger r1.creditsText 0,
           quota := parseInteger r1.quotaText 0,
           reserved := parseReserved r1.reservedText,
           status := normalizeStatus r1.statusText,
           sessions := [⟨generateId ctr, p.day, p.startTime, p.endTime, rowClassroom r1⟩],
           color := DEFAULT_COURSE_COLOR }]) := by
  refine ⟨?_, ?_, ?_⟩
  · intro sessions session h
    simp [addUniqueSession, h]
  · intro sessions session h
    simp [addUniqueSession, h]
  · intro r1 r2 ctr p h5a h5b hcode hgroup hs1 hs2 hprofne hsent hnotin
    have h1 : ¬ r1.cellCount < 5 := by omega
    have h2 : ¬ r2.cellCount < 5 := by omega
    have hnotin2 : ¬ ∃ a ∈ splitOnChar ',' (rowProfessor r1).data,
        normalizeWhitespace ⟨a⟩ = rowProfessor r2 := by simpa using hnotin
    simp [parseStudentProfileRows, List.foldl, processProfileRow, if_neg h1, if_neg h2,
      hs1, hs2, mapLookup, List.find?, mapUpdate, hcode, hgroup, addUniqueSession,
      hprofne, hsent, hnotin2, Ne.symm hprofne]

/-- Two concrete profile rows differing only in the professor cell. -/
def c7row1 : ProfileRow :=
  ⟨11, "CA2125", "Elementos de computacion", "01", "3", "Martes - 9:30:11:20",
   "B6-04", "Profesor 1", "24", "Regular", "1"⟩

/-- The second row of the C7 witness. -/
def c7row2 : ProfileRow :=
  ⟨11, "CA2125", "Elementos de computacion", "01", "3", "Martes - 9:30:11:20",
   "B6-04", "Profesor 2", "24", "Regular", "1"⟩

/-- Witness for C7: the two concrete rows collapse into one course with one
session and the merged professor field. -/
theorem claim_C7_witness :
    parseStudentProfileRows [c7row1, c7row2] 0 =
      [{ originalCode := rowCode c7row1, name := rowName c7row1, campus := "Cartago",
         group := rowGroup c7row1,
         professor := rowProfessor c7row1 ++ ", " ++ rowProfessor c7row2,
         credits := parseInteger c7row1.creditsText 0,
         quota := parseInteger c7row1.quotaText 0,
         reserved := parseReserved c7row1.reservedText,
         status := normalizeStatus c7row1.statusText,
         sessions := [⟨generateId 0, "Martes", "09:30", "11:20", rowClassroom c7row1⟩],
         color := DEFAULT_COURSE_COLOR }] :=
  claim_C7.2.2 c7row1 c7row2 0 ⟨"Martes", "09:30", "11:20"⟩
    (by decide) (by decide) (by decide) (by decide) (by decide) (by decide)
    (by decide) (by decide) (by decide)

/-! ## Claims C4 and C2: structural failure modes and report bookkeeping -/

/-- Extractor issue codes are never the structural code. -/
theorem extractIssueCodeString_ne_structure (c : ExtractIssueCode) :
    extractIssueCodeString c ≠ "SCRAPING_STRUCTURE_NOT_FOUND" := by
  cases c <;> decide

/-- C4: when neither shape's root selector matches, strict mode throws the
typed structural error carrying the concatenation of both selector lists;
lenient (or default) mode returns zero courses plus a report whose issues
contain the `SCRAPING_STRUCTURE_NOT_FOUND` code; and a successful
detection (either shape) that yields zero courses produces a report with
no structural issue. -/
theorem claim_C4 :
    (∀ (doc : AbstractDoc) (t0 t1 idCtr : Nat) (history : List ScrapingAttemptReport),
      doc.profileRoot = none → doc.matriculaRoot = none →
      (parseTecHtmlWithReport doc true t0 t1 idCtr history).1 =
        .error (.structureNotFound structureErrorMessage
          (STUDENT_PROFILE_ROOT_SELECTORS ++ MATRICULA_ROOT_SELECTORS))) ∧
    (∀ (doc : AbstractDoc) (t0 t1 idCtr : Nat) (history : List ScrapingAttemptReport),
      doc.profileRoot = none → doc.matriculaRoot = none →
      ∃ r, (parseTecHtmlWithReport doc false t0 t1 idCtr history).1 = .ok ([], r) ∧
        (r.issues.any fun i => i.code = "SCRAPING_STRUCTURE_NOT_FOUND") = true) ∧
    (∀ (doc : AbstractDoc) (sel : String) (eff : ExtractEffects) (flag : Bool)
       (t0 t1 idCtr : Nat) (history : List ScrapingAttemptReport),
      doc.profileRoot = some sel → doc.profileExtract = ⟨eff, .ok []⟩ →
      ∃ r, (parseTecHtmlWithReport doc flag t0 t1 idCtr history).1 = .ok ([], r) ∧
        (r.issues.all fun i => i.code ≠ "SCRAPING_STRUCTURE_NOT_FOUND") = true) ∧
    (∀ (doc : AbstractDoc) (sel : String) (eff : ExtractEffects) (flag : Bool)
       (t0 t1 idCtr : Nat) (history : List ScrapingAttemptReport),
      doc.profileRoot = none → doc.matriculaRoot = some sel →
      doc.matriculaExtract = ⟨eff, .ok []⟩ →
      ∃ r, (parseTecHtmlWithReport doc flag t0 t1 idCtr history).1 = .ok ([], r) ∧
        (r.issues.all fun i => i.code ≠ "SCRAPING_STRUCTURE_NOT_FOUND") = true) := by
  refine ⟨?_, ?_, ?_, ?_⟩
  · intro doc t0 t1 idCtr history h1 h2
    obtain ⟨pr, mr, pe, me⟩ := doc
    simp only at h1 h2
    subst h1; subst h2
    rfl
  · intro doc t0 t1 idCtr history h1 h2
    obtain ⟨pr, mr, pe, me⟩ := doc
    simp only at h1 h2
    subst h1; subst h2
    refine ⟨_, rfl, ?_⟩
    simp [createReport, finishReport]
  · intro doc sel eff flag t0 t1 idCtr history h1 h2
    obtain ⟨pr, mr, pe, me⟩ := doc
    simp only at h1 h2
    subst h1; subst h2
    refine ⟨_, rfl, ?_⟩
    simp [applyEffects, createReport, finishReport, List.all_eq_true]
    intro x c m hmem hx
    rw [← hx]
    exact extractIssueCodeString_ne_structure c
  · intro doc sel eff flag t0 t1 idCtr history h1 h2 h3
    obtain ⟨pr, mr, pe, me⟩ := doc
    simp only at h1 h2 h3
    subst h1; subst h2; subst h3
    refine ⟨_, rfl, ?_⟩
    simp [applyEffects, createReport, finishReport, List.all_eq_true]
    intro x c m hmem hx
    rw [← hx]
    exact extractIssueCodeString_ne_structure c

/-- A document in which neither root selector matches. -/
def noRootDoc : AbstractDoc :=
  ⟨none, none, ⟨⟨[], 0, [], []⟩, .ok []⟩, ⟨⟨[], 0, [], []⟩, .ok []⟩⟩

/-- Witness for C4 at the concrete no-root document. -/
theorem claim_C4_witness :
    (parseTecHtmlWithReport noRootDoc true 0 1 0 []).1 =
      .error (.structureNotFound structureErrorMessage
        (STUDENT_PROFILE_ROOT_SELECTORS ++ MATRICULA_ROOT_SELECTORS)) :=
  claim_C4.1 noRootDoc 0 1 0 [] rfl rfl

/-- C2 as stated is false: in the invocation where detection fails and
`throwOnStructureError` is true, the function rethrows before setting
`finishedAt` and before `storeReportInHistory`, so no snapshot is appended
— starting from an empty history, the history is still empty afterwards. -/
theorem claim_C2_counterexample :
    (parseTecHtmlWithReport noRootDoc true 0 1 0 []).2 = [] ∧
    (parseTecHtmlWithReport noRootDoc true 0 1 0 []).1 =
      .error (.structureNotFound structureErrorMessage
        (STUDENT_PROFILE_ROOT_SELECTORS ++ MATRICULA_ROOT_SELECTORS)) :=
  ⟨rfl, rfl⟩

/-- C2 amended: every invocation except the strict-mode structural failure
returns normally with `startedAt`/`finishedAt` populated,
`parsedCourses = courses.length`, found/missing counts agreeing with the
schedule attempts, and the report snapshot prepended to the history
truncated at the fixed cap; the strict-mode structural failure instead
propagates the typed error and leaves the history untouched. -/
theorem claim_C2_amended :
    ∀ (doc : AbstractDoc) (flag : Bool) (t0 t1 idCtr : Nat)
      (history : List ScrapingAttemptReport),
      (¬ (doc.profileRoot = none ∧ doc.matriculaRoot = none ∧ flag = true) →
        ∃ courses r,
          parseTecHtmlWithReport doc flag t0 t1 idCtr history =
            (.ok (courses, r), (r :: history).take MAX_REPORT_HISTORY) ∧
          r.startedAt = t0 ∧ r.finishedAt = some t1 ∧
          r.parsedCourses = courses.length ∧
          r.schedulesFound = (r.scheduleAttempts.filter fun a => a.found).length ∧
          r.schedulesMissing = (r.scheduleAttempts.filter fun a => ! a.found).length) ∧
      (doc.profileRoot = none → doc.matriculaRoot = none → flag = true →
        parseTecHtmlWithReport doc flag t0 t1 idCtr history =
          (.error (.structureNotFound structureErrorMessage
            (STUDENT_PROFILE_ROOT_SELECTORS ++ MATRICULA_ROOT_SELECTORS)), history)) := by
  intro doc flag t0 t1 idCtr history
  obtain ⟨pr, mr, ⟨peff, pout⟩, ⟨meff, mout⟩⟩ := doc
  constructor
  · intro hnot
    cases pr with
    | some sel =>
      cases pout <;>
        exact ⟨_, _, rfl, rfl, rfl, rfl, by simp [applyEffects, createReport],
          by simp [applyEffects, createReport]⟩
    | none =>
      cases mr with
      | some sel =>
        cases mout <;>
          exact ⟨_, _, rfl, rfl, rfl, rfl, by simp [applyEffects, createReport],
            by simp [applyEffects, createReport]⟩
      | none =>
        have hflag : flag = false := by
          cases flag
          · rfl
          · exact absurd ⟨rfl, rfl, rfl⟩ hnot
        subst hflag
        exact ⟨_, _, rfl, rfl, rfl, rfl, by simp [createReport], by simp [createReport]⟩
  · intro h1 h2 h3
    simp only at h1 h2
    subst h1; subst h2; subst h3
    rfl

/-- A document matching the first student-profile root selector. -/
def profileDoc : AbstractDoc :=
  ⟨some "#t_guia_horario", none, ⟨⟨["#t_guia_horario table"], 2, [], []⟩, .ok []⟩,
   ⟨⟨[], 0, [], []⟩, .ok []⟩⟩

/-- Witness for the amended C2 at a concrete profile document. -/
theorem claim_C2_amended_witness :
    ∃ courses r,
      parseTecHtmlWithReport profileDoc false 0 1 0 [] =
        (.ok (courses, r), (r :: []).take MAX_REPORT_HISTORY) ∧
      r.startedAt = 0 ∧ r.finishedAt = some 1 ∧
      r.parsedCourses = courses.length ∧
      r.schedulesFound = (r.scheduleAttempts.filter fun a => a.found).length ∧
      r.schedulesMissing = (r.scheduleAttempts.filter fun a => ! a.found).length :=
  (claim_C2_amended profileDoc false 0 1 0 []).1 (by simp [profileDoc])

/-! ## Claim C1: conflict-gated activation -/

/-- `checkSessionConflict` holds exactly when some scheduled course has a
session on the same day whose `[start, end)` interval overlaps strictly. -/
theorem checkSessionConflict_eq_true (sess : CourseSession) (others : List Course) :
    checkSessionConflict sess others = true ↔
      ∃ c2 ∈ others, c2.isScheduled = true ∧ ∃ s2 ∈ c2.sessions,
        s2.day = sess.day ∧
        jsLt (parseTime sess.startTime) (parseTime s2.endTime) = true ∧
        jsGt (parseTime sess.endTime) (parseTime s2.startTime) = true := by
  unfold checkSessionConflict
  simp [List.any_eq_true, List.mem_filter, ite_eq_iff]

/-- The `for` loop of `checkCourseConflicts` returns the message of the
first conflicting session in iteration order. -/
theorem firstConflict_eq_find (sessions : List CourseSession) (others : List Course) :
    firstConflict sessions others =
      (sessions.find? fun s => checkSessionConflict s others).map conflictMessage := by
  induction sessions with
  | nil => rfl
  | cons s rest ih =>
    by_cases h : checkSessionConflict s others
    · simp [firstConflict, h, List.find?_cons_of_pos]
    · simp [firstConflict, h, List.find?_cons, ih]

/-- `checkCourseConflicts` passes exactly when no session conflicts. -/
theorem checkCourseConflicts_none_iff (course : Course) (others : List Course) :
    checkCourseConflicts course others = none ↔
      ∀ s ∈ course.sessions, checkSessionConflict s others = false := by
  rw [checkCourseConflicts, firstConflict_eq_find]
  simp [List.find?_eq_none]

/-- `checkCourseConflicts` passes exactly when no session of the course
overlaps a same-day session of a scheduled course. -/
theorem checkCourseConflicts_none_iff_prop (course : Course) (others : List Course) :
    checkCourseConflicts course others = none ↔
      ¬ ∃ sess ∈ course.sessions, ∃ c2 ∈ others, c2.isScheduled = true ∧
          ∃ s2 ∈ c2.sessions, s2.day = sess.day ∧
            jsLt (parseTime sess.startTime) (parseTime s2.endTime) = true ∧
            jsGt (parseTime sess.endTime) (parseTime s2.startTime) = true := by
  rw [checkCourseConflicts_none_iff]
  constructor
  · rintro h ⟨sess, hm, hex⟩
    have htrue : checkSessionConflict sess others = true :=
      (checkSessionConflict_eq_true sess others).mpr hex
    rw [h sess hm] at htrue
    exact Bool.false_ne_true htrue
  · intro h s hs
    cases hcs : checkSessionConflict s others with
    | false => rfl
    | true =>
      exact absurd ⟨s, hs, (checkSessionConflict_eq_true s others).mp hcs⟩ h

/-- A thrown conflict message is the message of the first conflicting
session in session iteration order. -/
theorem checkCourseConflicts_some (course : Course) (others : List Course) (msg : String)
    (h : checkCourseConflicts course others = some msg) :
    ∃ sess, (course.sessions.find? fun s => checkSessionConflict s others) = some sess ∧
      msg = conflictMessage sess := by
  rw [checkCourseConflicts, firstConflict_eq_find] at h
  cases hf : course.sessions.find? fun s => checkSessionConflict s others with
  | none => rw [hf] at h; simp at h
  | some sess =>
    rw [hf] at h
    simp at h
    exact ⟨sess, rfl, h.symm⟩

/-- `toggleCourseStatus` on a found pending course, expressed through its
conflict check. -/
theorem toggleCourseStatus_eq (schedules : List Schedule) (cid courseId : String)
    (schedule : Schedule) (course : Course) (hcid : ¬ cid = "")
    (hfs : schedules.find? (fun s => s.id = cid) = some schedule)
    (hfc : schedule.courses.find? (fun c => c.id = courseId) = some course)
    (hsched : course.isScheduled = false) :
    toggleCourseStatus schedules (some cid) courseId =
      match checkCourseConflicts course (schedule.courses.filter fun c => c.id ≠ courseId) with
      | some msg => (some msg, schedules)
      | none =>
        (none, schedules.map fun s =>
          if s.id = cid then
            { s with courses := s.courses.map fun c =>
                if c.id = courseId then { c with isScheduled := ¬ c.isScheduled } else c }
          else s) := by
  cases hcc : checkCourseConflicts course (schedule.courses.filter fun c => c.id ≠ courseId) <;>
    (have hcc2 := hcc
     simp only [ne_eq, decide_not] at hcc2
     simp [toggleCourseStatus, hcid, hfs, hfc, hsched, hcc, hcc2])

/-- When the checked course does not conflict, the `schedules.map` of
`updateCourse` completes without throwing. -/
theorem updateCourseGo_ok (cid : String) (uc : Course) (schedule : Schedule)
    (hid : schedule.id = cid)
    (hcc : (if uc.isScheduled then
        checkCourseConflicts uc (schedule.courses.filter fun c => c.id ≠ uc.id)
      else none) = none) :
    ∀ schedules : List Schedule, (∀ s ∈ schedules, s.id = cid → s = schedule) →
      ∃ l, updateCourseGo schedules cid uc = .ok l := by
  intro schedules
  induction schedules with
  | nil => intro _; exact ⟨[], rfl⟩
  | cons s rest ih =>
    intro huniq
    have ihr := ih fun t ht h => huniq t (List.mem_cons_of_mem s ht) h
    obtain ⟨l, hl⟩ := ihr
    by_cases hs : s.id = cid
    · have hseq : s = schedule := huniq s (List.mem_cons_self s rest) hs
      subst hseq
      exact ⟨{ s with courses := s.courses.map fun c => if c.id = uc.id then uc else c } :: l,
        by simp only [updateCourseGo, if_pos hs, hcc, hl]⟩
    · exact ⟨s :: l, by simp only [updateCourseGo, if_neg hs, hl]⟩

/-- When the checked course conflicts, the `schedules.map` of
`updateCourse` throws that conflict at the (unique) current schedule. -/
theorem updateCourseGo_error (cid : String) (uc : Course) (schedule : Schedule)
    (hid : schedule.id = cid) (e : String)
    (hcc : (if uc.isScheduled then
        checkCourseConflicts uc (schedule.courses.filter fun c => c.id ≠ uc.id)
      else none) = some e) :
    ∀ schedules : List Schedule, (∀ s ∈ schedules, s.id = cid → s = schedule) →
      schedule ∈ schedules → updateCourseGo schedules cid uc = .error e := by
  intro schedules
  induction schedules with
  | nil => intro _ hmem; exact absurd hmem (List.not_mem_nil schedule)
  | cons s rest ih =>
    intro huniq hmem
    by_cases hs : s.id = cid
    · have hseq : s = schedule := huniq s (List.mem_cons_self s rest) hs
      subst hseq
      simp only [updateCourseGo, if_pos hs, hcc]
    · have hmem2 : schedule ∈ rest := by
        rcases List.mem_cons.mp hmem with h | h
        · exact absurd (h ▸ hid) hs
        · exact h
      have := ih (fun t ht h => huniq t (List.mem_cons_of_mem s ht) h) hmem2
      simp only [updateCourseGo, if_neg hs, this]

/-- C1: activating a pending course (`toggleCourseStatus`) succeeds iff no
session of it shares a day and strictly overlaps (`startA < endB && endA >
startB`) a session of another scheduled course of the current schedule;
editing a course into scheduled state (`updateCourse`) obeys the same
condition against the other courses; on conflict the operation throws the
message naming the day, start and end of the candidate's first conflicting
session in session iteration order, and the schedule collection is left
completely unchanged. -/
theorem claim_C1 :
    (∀ (schedules : List Schedule) (cid courseId : String) (schedule : Schedule)
       (course : Course),
      cid ≠ "" →
      schedules.find? (fun s => s.id = cid) = some schedule →
      schedule.courses.find? (fun c => c.id = courseId) = some course →
      course.isScheduled = false →
      (((toggleCourseStatus schedules (some cid) courseId).1 = none) ↔
        ¬ ∃ sess ∈ course.sessions,
            ∃ c2 ∈ schedule.courses.filter fun c => c.id ≠ courseId,
              c2.isScheduled = true ∧ ∃ s2 ∈ c2.sessions,
                s2.day = sess.day ∧
                jsLt (parseTime sess.startTime) (parseTime s2.endTime) = true ∧
                jsGt (parseTime sess.endTime) (parseTime s2.startTime) = true) ∧
      (∀ msg, (toggleCourseStatus schedules (some cid) courseId).1 = some msg →
        (toggleCourseStatus schedules (some cid) courseId).2 = schedules ∧
        ∃ sess, (course.sessions.find? fun s =>
            checkSessionConflict s (schedule.courses.filter fun c => c.id ≠ courseId)) =
              some sess ∧
          msg = conflictMessage sess)) ∧
    (∀ (schedules : List Schedule) (cid : String) (uc : Course) (schedule : Schedule),
      cid ≠ "" →
      schedule ∈ schedules → schedule.id = cid →
      (∀ s ∈ schedules, s.id = cid → s = schedule) →
      uc.isScheduled = true →
      (((updateCourse schedules (some cid) uc).1 = none) ↔
        ¬ ∃ sess ∈ uc.sessions,
            ∃ c2 ∈ schedule.courses.filter fun c => c.id ≠ uc.id,
              c2.isScheduled = true ∧ ∃ s2 ∈ c2.sessions,
                s2.day = sess.day ∧
                jsLt (parseTime sess.startTime) (parseTime s2.endTime) = true ∧
                jsGt (parseTime sess.endTime) (parseTime s2.startTime) = true) ∧
      (∀ msg, (updateCourse schedules (some cid) uc).1 = some msg →
        (updateCourse schedules (some cid) uc).2 = schedules)) := by
  constructor
  · intro schedules cid courseId schedule course hcid hfs hfc hsched
    have heq := toggleCourseStatus_eq schedules cid courseId schedule course hcid hfs hfc hsched
    cases hcc : checkCourseConflicts course
        (schedule.courses.filter fun c => c.id ≠ courseId) with
    | none =>
      rw [hcc] at heq
      constructor
      · exact iff_of_true (by rw [heq])
          ((checkCourseConflicts_none_iff_prop course _).mp hcc)
      · intro msg hmsg
        rw [heq] at hmsg
        simp at hmsg
    | some m =>
      rw [hcc] at heq
      constructor
      · apply iff_of_false
        · rw [heq]; simp
        · intro hno
          have hnone := (checkCourseConflicts_none_iff_prop course _).mpr hno
          rw [hcc] at hnone
          exact Option.some_ne_none m hnone
      · intro msg hmsg
        rw [heq] at hmsg
        simp at hmsg
        subst hmsg
        refine ⟨by rw [heq], ?_⟩
        exact checkCourseConflicts_some course _ m hcc
  · intro schedules cid uc schedule hcid hmem hid huniq hsched
    cases hcc : checkCourseConflicts uc (schedule.courses.filter fun c => c.id ≠ uc.id) with
    | none =>
      obtain ⟨l, hl⟩ := updateCourseGo_ok cid uc schedule hid
        (by rw [hsched]; simpa using hcc) schedules huniq
      constructor
      · exact iff_of_true (by simp [updateCourse, hcid, hl])
          ((checkCourseConflicts_none_iff_prop uc _).mp hcc)
      · intro msg hmsg
        simp [updateCourse, hcid, hl] at hmsg
    | some e =>
      have herr := updateCourseGo_error cid uc schedule hid e
        (by rw [hsched]; simpa using hcc) schedules huniq hmem
      constructor
      · apply iff_of_false
        · simp [updateCourse, hcid, herr]
        · intro hno
          have hnone := (checkCourseConflicts_none_iff_prop uc _).mpr hno
          rw [hcc] at hnone
          exact Option.some_ne_none e hnone
      · intro msg hmsg
        simp [updateCourse, hcid, herr]

/-- A pending course whose Monday 09:00–10:00 session only touches the
boundary of `demoActive`. -/
def demoPending : Course :=
  ⟨"c3", "Ingles", "Cartago", "1", "P3", 2, 20, false, .presencial,
   [⟨"s3", "Lunes", "09:00", "10:00", "A3"⟩], false, none⟩

/-- A pending course whose Monday 08:00–10:00 session overlaps
`demoActive`. -/
def demoPendingClash : Course :=
  ⟨"c4", "Quimica", "Cartago", "1", "P4", 2, 20, false, .presencial,
   [⟨"s4", "Lunes", "08:00", "10:00", "A4"⟩], false, none⟩

/-- Schedule with the active course and the boundary-touching pending one. -/
def demoScheduleTouch : Schedule := ⟨"d", "Horario", [demoActive, demoPending], 0⟩

/-- Schedule with the active course and the overlapping pending one. -/
def demoScheduleClash : Schedule := ⟨"d", "Horario", [demoActive, demoPendingClash], 0⟩

/-- Witness for C1: the boundary-touching activation succeeds, the
overlapping activation leaves the collection unchanged. -/
theorem claim_C1_witness :
    (toggleCourseStatus [demoScheduleTouch] (some "d") "c3").1 = none ∧
    (toggleCourseStatus [demoScheduleClash] (some "d") "c4").2 = [demoScheduleClash] :=
  ⟨((claim_C1.1 [demoScheduleTouch] "d" "c3" demoScheduleTouch demoPending
      (by decide) (by decide) (by decide) (by decide)).1).mpr (by decide),
   ((claim_C1.1 [demoScheduleClash] "d" "c4" demoScheduleClash demoPendingClash
      (by decide) (by decide) (by decide) (by decide)).2
      "Choque de horario: Lunes 08:00 - 10:00" (by decide)).1⟩
